import Mathlib

/-! Shadow echo plug-in, `src/library/echo/shd-echo-tcp.c`, and the bandwidth
conversion of the Scallion plug-in, `src/scallion-tor.c`.

A shallow embedding of the TCP echo client, the echo server and the session
controller (`echotcp_new`, `echotcp_ready`), and of
`intercept_rep_hist_bandwidth_assess`, followed by the properties established
for them.

Conventions of the embedding.

* C `gint`/`ssize_t` values are `Int`.  All offsets stay between `-1` and
  `BUFFERSIZE`, so no `gint` arithmetic wraps; where a `gint` that may be
  negative is converted to `size_t` the conversion is explicit (`toSizeT`,
  `% 2^64`).
* A `gchar` array is a `List Byte`; `buf + off` is an offset into the list.
* Every handler returns the new state together with the list of calls it
  issued (system calls and log calls), in program order.
* The results of system calls are inputs (`Env`, `NewEnv`, `EpollEvent`).
  `recv` and `send` follow their contract: the result is `-1` or a count
  between `0` and the requested length.
* `BUFFERSIZE` is defined in `shd-echo.h`, which is not among the sources; it
  is a parameter of every definition that uses it.
-/

namespace ShadowEcho

/-! ## System-call interface -/

/-- One `gchar`/`unsigned char` cell of a buffer. -/
abbrev Byte := Fin 256

/-- What the kernel has in store for one `recv` call: an error (`-1`, which
includes the would-block condition of a non-blocking socket) or the bytes that
are available (none at all is end of stream). -/
inductive RecvOutcome where
  | fail
  | data (bs : List Byte)
deriving DecidableEq, Repr

/-- What the kernel has in store for one `send` call: an error (`-1`) or the
number of bytes it is ready to take. -/
inductive SendOutcome where
  | fail
  | count (n : Nat)
deriving DecidableEq, Repr

/-- Result of `recv(fd, buf, len, 0)`: the return value and the bytes stored
at `buf`.  Never more than `len` bytes are delivered. -/
def recvCall (len : Nat) : RecvOutcome → Int × List Byte
  | .fail => (-1, [])
  | .data bs => (((bs.take len).length : Nat), bs.take len)

/-- Result of `send(fd, buf, len, 0)`: `-1` or a count of at most `len`. -/
def sendCall (len : Nat) : SendOutcome → Int
  | .fail => -1
  | .count n => ((min n len : Nat) : Int)

/-- Levels of the GLib log function handed to the plug-in. -/
inductive LogLevel where
  | warning
  | message
  | info
  | debug
deriving DecidableEq, Repr

/-- A call issued by the plug-in, with its arguments and its result. -/
inductive Call where
  | socket (ret : Int)
  | connect (fd : Int) (ret : Int)
  | bind (fd : Int) (ret : Int)
  | listen (fd : Int) (ret : Int)
  | epoll_create (ret : Int)
  | epoll_ctl (epfd : Int) (op : Nat) (fd : Int) (events : Nat) (ret : Int)
  | accept (fd : Int) (ret : Int)
  | recv (fd : Int) (len : Nat) (ret : Int) (bytes : List Byte)
  | send (fd : Int) (bytes : List Byte) (ret : Int)
  | close (fd : Int)
  | gethostname (ret : Int)
  | getaddrinfo (ret : Int)
  | log (level : LogLevel) (msg : String)
deriving DecidableEq, Repr

/-- Constant `EPOLLIN` of `sys/epoll.h`. -/
def EPOLLIN : Nat := 1

/-- Constant `EPOLLOUT` of `sys/epoll.h`. -/
def EPOLLOUT : Nat := 4

/-- Constant `EPOLL_CTL_ADD` of `sys/epoll.h`. -/
def EPOLL_CTL_ADD : Nat := 1

/-- Constant `EPOLL_CTL_DEL` of `sys/epoll.h`. -/
def EPOLL_CTL_DEL : Nat := 2

/-- Constant `EPOLL_CTL_MOD` of `sys/epoll.h`. -/
def EPOLL_CTL_MOD : Nat := 3

/-- Constant `EINPROGRESS` of `errno.h` (Linux). -/
def EINPROGRESS : Int := 115

/-- Results of the system calls one event handler makes.  `recvs` lists the
outcomes of its successive `recv` calls; a call beyond the end of the list
finds nothing to read and fails with `-1` (would block).  `rand` is the
sequence of values returned by successive `rand()` calls. -/
structure Env where
  recvs : List RecvOutcome
  send : SendOutcome
  accept : Int
  ctl : Int
  rand : Nat → Nat

/-- Conversion of a `gint` to `size_t` (64-bit). -/
def toSizeT (i : Int) : Nat := (i % (2 ^ 64 : Int)).toNat

/-- Store `data` into `buf` starting at offset `off` (what `recv` does with
`buf + off`). -/
def writeAt (buf : List Byte) (off : Nat) (data : List Byte) : List Byte :=
  buf.take off ++ data ++ buf.drop (off + data.length)

/-- C library `memcmp(a, b, n)` on `unsigned char` cells: `0` when the first
`n` cells agree, otherwise the difference of the first pair that differs.  The
comparison stops at the end of either array (reading further is undefined in
C). -/
def memcmp : List Byte → List Byte → Nat → Int
  | [], _, _ => 0
  | _ :: _, [], _ => 0
  | _ :: _, _ :: _, 0 => 0
  | a :: as, b :: bs, n + 1 =>
    if a = b then memcmp as bs n else (a.val : Int) - (b.val : Int)

/-! ## Echo client -/

/-- Modelled from the spec: `struct _EchoClient` is declared in `shd-echo.h`,
which is not among the sources.  The fields are those the code uses; the
counters and flags are `gint` (they are logged with `%i`), the two buffers
have `BUFFERSIZE` cells.  The `log` callback is represented by the `Call.log`
entries of the handlers. -/
structure EchoClient where
  serverIP : Nat
  epolld : Int
  socketd : Int
  sendBuffer : List Byte
  recvBuffer : List Byte
  recv_offset : Int
  sent_msg : Int
  amount_sent : Int
  is_done : Int
deriving DecidableEq, Repr

/-- The client `g_new0` allocates at the end of `_echotcp_newClient`. -/
def freshClient (BUFFERSIZE : Nat) (socketd epolld : Int) (serverIP : Nat) : EchoClient :=
  { serverIP := serverIP, epolld := epolld, socketd := socketd,
    sendBuffer := List.replicate BUFFERSIZE 0,
    recvBuffer := List.replicate BUFFERSIZE 0,
    recv_offset := 0, sent_msg := 0, amount_sent := 0, is_done := 0 }

/-- The `while` loop of `_echotcp_clientReadable`: as long as bytes are
outstanding, `recv` into `recvBuffer + recv_offset` and advance `recv_offset`
by each positive result. -/
def clientRecvLoop (socketd : Int) : EchoClient → List RecvOutcome → EchoClient × List Call
  | ec, [] =>
    if ec.amount_sent - ec.recv_offset > 0 then
      (ec, [Call.recv socketd (ec.amount_sent - ec.recv_offset).toNat (-1) []])
    else (ec, [])
  | ec, o :: rest =>
    if ec.amount_sent - ec.recv_offset > 0 then
      let len := (ec.amount_sent - ec.recv_offset).toNat
      let r := recvCall len o
      let ec1 := { ec with recvBuffer := writeAt ec.recvBuffer ec.recv_offset.toNat r.2 }
      if r.1 > 0 then
        let next := clientRecvLoop socketd { ec1 with recv_offset := ec1.recv_offset + r.1 } rest
        (next.1, Call.recv socketd len r.1 r.2
                  :: Call.log .debug "client socket %i read %i bytes: '%s'" :: next.2)
      else (ec1, [Call.recv socketd len r.1 r.2])
    else (ec, [])

/-- Embedding of `_echotcp_clientReadable`. -/
def _echotcp_clientReadable (ec : EchoClient) (socketd : Int) (env : Env) :
    EchoClient × List Call :=
  if ec.is_done = 0 then
    let l := clientRecvLoop socketd ec env.recvs
    let ec1 := l.1
    if ec1.recv_offset ≥ ec1.amount_sent then
      let verdict :=
        if memcmp ec1.sendBuffer ec1.recvBuffer (toSizeT ec1.amount_sent) ≠ 0 then
          Call.log .message "inconsistent echo received!"
        else Call.log .message "consistent echo received!"
      ({ ec1 with is_done := 1 },
        Call.log .debug "trying to read socket %i" :: l.2 ++ [verdict, Call.close socketd])
    else
      (ec1, Call.log .debug "trying to read socket %i" :: l.2
              ++ [Call.log .info "echo progress: %i of %i bytes"])
  else (ec, [Call.log .debug "trying to read socket %i"])

/-- Embedding of `_echotcp_fillCharBuffer`: for `i` from `0` to `size - 1`,
`buffer[i] = 97 + rand() % 26` (97 is the letter a). -/
def _echotcp_fillCharBuffer (rand : Nat → Nat) (buffer : List Byte) (size : Nat) : List Byte :=
  (List.range size).foldl (fun b i => b.set i (Fin.ofNat (97 + rand i % 26))) buffer

/-- Embedding of `_echotcp_clientWritable`.  `sizeof(ec->sendBuffer)` is
`BUFFERSIZE`; the comparison `ec->amount_sent >= sizeof(ec->sendBuffer)` is
made in `size_t`. -/
def _echotcp_clientWritable (BUFFERSIZE : Nat) (ec : EchoClient) (socketd : Int) (env : Env) :
    EchoClient × List Call :=
  if ec.sent_msg = 0 then
    let buf := _echotcp_fillCharBuffer env.rand ec.sendBuffer (BUFFERSIZE - 1)
    let b := sendCall BUFFERSIZE env.send
    let ec1 := { ec with sendBuffer := buf, sent_msg := 1, amount_sent := ec.amount_sent + b }
    let calls := [Call.log .debug "trying to write to socket %i", Call.send socketd buf b,
                  Call.log .debug "client socket %i wrote %i bytes: '%s'"]
    if toSizeT ec1.amount_sent ≥ BUFFERSIZE then
      (ec1, calls ++ Call.epoll_ctl ec.epolld EPOLL_CTL_MOD socketd EPOLLIN env.ctl
              :: (if env.ctl = -1 then [Call.log .warning "Error in epoll_ctl"] else []))
    else (ec1, calls)
  else (ec, [])

/-! ## Echo server -/

/-- Modelled from the spec: `struct _EchoServer` is declared in `shd-echo.h`,
which is not among the sources.  The fields are those the code uses; the two
offsets are `gint`, the buffer has `BUFFERSIZE` cells. -/
structure EchoServer where
  epolld : Int
  listend : Int
  echoBuffer : List Byte
  read_offset : Int
  write_offset : Int
deriving DecidableEq, Repr

/-- The server `g_new0` allocates at the end of `_echotcp_newServer`. -/
def freshServer (BUFFERSIZE : Nat) (socketd epolld : Int) : EchoServer :=
  { epolld := epolld, listend := socketd,
    echoBuffer := List.replicate BUFFERSIZE 0, read_offset := 0, write_offset := 0 }

/-- Embedding of `_echotcp_serverReadable`. -/
def _echotcp_serverReadable (BUFFERSIZE : Nat) (es : EchoServer) (socketd : Int) (env : Env) :
    EchoServer × List Call :=
  if socketd = es.listend then
    if env.accept = -1 then
      (es, [Call.log .debug "trying to read socket %i", Call.accept es.listend env.accept,
            Call.log .warning "error accepting socket"])
    else
      (es, [Call.log .debug "trying to read socket %i", Call.accept es.listend env.accept,
            Call.epoll_ctl es.epolld EPOLL_CTL_ADD env.accept EPOLLIN env.ctl]
            ++ (if env.ctl = -1 then [Call.log .warning "Error in epoll_ctl"] else []))
  else
    let read_size : Int := (BUFFERSIZE : Int) - es.read_offset
    if read_size > 0 then
      let r := recvCall read_size.toNat (env.recvs.headD .fail)
      let es1 := { es with echoBuffer := writeAt es.echoBuffer es.read_offset.toNat r.2 }
      let calls := [Call.log .debug "trying to read socket %i",
                    Call.recv socketd read_size.toNat r.1 r.2]
      if r.1 = 0 then
        (es1, calls ++ [Call.close es.listend, Call.close socketd])
      else if r.1 > 0 then
        ({ es1 with read_offset := es1.read_offset + r.1 },
          calls ++ [Call.log .info "server socket %i read %i bytes",
                    Call.epoll_ctl es.epolld EPOLL_CTL_MOD socketd (EPOLLIN ||| EPOLLOUT) env.ctl]
            ++ (if env.ctl = -1 then [Call.log .warning "Error in epoll_ctl"] else []))
      else (es1, calls)
    else (es, [Call.log .debug "trying to read socket %i"])

/-- The bytes of `buf` from offset `lo` up to, not including, offset `hi`. -/
def slice (buf : List Byte) (lo hi : Int) : List Byte :=
  (buf.drop lo.toNat).take (hi - lo).toNat

/-- Embedding of `_echotcp_serverWritable`. -/
def _echotcp_serverWritable (es : EchoServer) (socketd : Int) (env : Env) :
    EchoServer × List Call :=
  let write_size : Int := es.read_offset - es.write_offset
  let first : EchoServer × Int × List Call :=
    if write_size > 0 then
      let bwrote := sendCall write_size.toNat env.send
      let sendc := Call.send socketd (slice es.echoBuffer es.write_offset es.read_offset) bwrote
      if bwrote = 0 then
        (es, write_size,
          [sendc, Call.epoll_ctl es.epolld EPOLL_CTL_DEL socketd 0 env.ctl]
            ++ (if env.ctl = -1 then [Call.log .warning "Error in epoll_ctl"] else []))
      else if bwrote > 0 then
        ({ es with write_offset := es.write_offset + bwrote }, write_size - bwrote,
          [sendc, Call.log .info "server socket %i wrote %i bytes"])
      else (es, write_size, [sendc])
    else (es, write_size, [])
  if first.2.1 = 0 then
    (first.1, Call.log .debug "trying to read socket %i" :: first.2.2
      ++ Call.epoll_ctl es.epolld EPOLL_CTL_MOD socketd EPOLLIN env.ctl
        :: (if env.ctl = -1 then [Call.log .warning "Error in epoll_ctl"] else []))
  else (first.1, Call.log .debug "trying to read socket %i" :: first.2.2)

/-! ## Session controller -/

/-- Results of the system calls made while one role is constructed. -/
structure NewEnv where
  socket : Int
  connect : Int
  errno : Int
  bind : Int
  listen : Int
  epoll_create : Int
  epoll_ctl : Int
deriving DecidableEq, Repr

/-- Embedding of `_echotcp_newClient`; `none` is the `NULL` result. -/
def _echotcp_newClient (BUFFERSIZE : Nat) (env : NewEnv) (serverIPAddress : Nat) :
    Option EchoClient × List Call :=
  if env.socket = -1 then
    (none, [Call.socket env.socket, Call.log .warning "Error in socket"])
  else if env.connect = -1 ∧ env.errno ≠ EINPROGRESS then
    (none, [Call.socket env.socket, Call.connect env.socket env.connect,
            Call.log .warning "Error in connect"])
  else if env.epoll_create = -1 then
    (none, [Call.socket env.socket, Call.connect env.socket env.connect,
            Call.epoll_create env.epoll_create, Call.log .warning "Error in epoll_create",
            Call.close env.socket])
  else if env.epoll_ctl = -1 then
    (none, [Call.socket env.socket, Call.connect env.socket env.connect,
            Call.epoll_create env.epoll_create,
            Call.epoll_ctl env.epoll_create EPOLL_CTL_ADD env.socket (EPOLLIN ||| EPOLLOUT)
              env.epoll_ctl,
            Call.log .warning "Error in epoll_ctl",
            Call.close env.epoll_create, Call.close env.socket])
  else
    (some (freshClient BUFFERSIZE env.socket env.epoll_create serverIPAddress),
      [Call.socket env.socket, Call.connect env.socket env.connect,
       Call.epoll_create env.epoll_create,
       Call.epoll_ctl env.epoll_create EPOLL_CTL_ADD env.socket (EPOLLIN ||| EPOLLOUT)
         env.epoll_ctl])

/-- Embedding of `_echotcp_newServer`; `none` is the `NULL` result. -/
def _echotcp_newServer (BUFFERSIZE : Nat) (env : NewEnv) (_bindIPAddress : Nat) :
    Option EchoServer × List Call :=
  if env.socket = -1 then
    (none, [Call.socket env.socket, Call.log .warning "Error in socket"])
  else if env.bind = -1 then
    (none, [Call.socket env.socket, Call.bind env.socket env.bind,
            Call.log .warning "error in bind"])
  else if env.listen = -1 then
    (none, [Call.socket env.socket, Call.bind env.socket env.bind,
            Call.listen env.socket env.listen, Call.log .warning "error in listen"])
  else if env.epoll_create = -1 then
    (none, [Call.socket env.socket, Call.bind env.socket env.bind,
            Call.listen env.socket env.listen, Call.epoll_create env.epoll_create,
            Call.log .warning "Error in epoll_create", Call.close env.socket])
  else if env.epoll_ctl = -1 then
    (none, [Call.socket env.socket, Call.bind env.socket env.bind,
            Call.listen env.socket env.listen, Call.epoll_create env.epoll_create,
            Call.epoll_ctl env.epoll_create EPOLL_CTL_ADD env.socket EPOLLIN env.epoll_ctl,
            Call.log .warning "Error in epoll_ctl",
            Call.close env.epoll_create, Call.close env.socket])
  else
    (some (freshServer BUFFERSIZE env.socket env.epoll_create),
      [Call.socket env.socket, Call.bind env.socket env.bind,
       Call.listen env.socket env.listen, Call.epoll_create env.epoll_create,
       Call.epoll_ctl env.epoll_create EPOLL_CTL_ADD env.socket EPOLLIN env.epoll_ctl])

/-- GLib `g_strncasecmp(s1, s2, n)` on NUL-terminated strings (the lists hold
the characters before the NUL): compares at most `n` characters, upper-case
letters folded to lower case, and returns `0` when no difference is met. -/
def g_strncasecmp : List Char → List Char → Nat → Int
  | _, _, 0 => 0
  | [], [], _ + 1 => 0
  | [], c2 :: _, _ + 1 => 0 - (c2.toNat : Int)
  | c1 :: _, [], _ + 1 => (c1.toNat : Int)
  | c1 :: s1, c2 :: s2, n + 1 =>
    if c1.toLower ≠ c2.toLower then (c1.toLower.toNat : Int) - (c2.toLower.toNat : Int)
    else g_strncasecmp s1 s2 n

/-- Modelled from the spec: `struct _EchoTCP` is declared in `shd-echo.h`,
which is not among the sources.  A session holds an optional client and an
optional server (`NULL` is `none`). -/
structure EchoTCP where
  client : Option EchoClient
  server : Option EchoServer
deriving DecidableEq, Repr

/-- Results of the calls `echotcp_new` makes: `gethostname`, `getaddrinfo`
(its return value and, for the return value `0`, the address found in the
first result), and the calls of the two role constructors. -/
structure SetupEnv where
  gethostname : Int
  getaddrinfo : Int
  addr : Nat
  client : NewEnv
  server : NewEnv
deriving DecidableEq, Repr

/-- The value `htonl(INADDR_LOOPBACK)`. -/
def loopbackIP : Nat := 0x0100007f

/-- What a call of `echotcp_new` comes to: it returns a pointer (`none` is
`NULL`), or its behaviour is undefined because it reads the `struct addrinfo`
pointer that a failed `getaddrinfo` never set. -/
inductive NewResult where
  | returned (etcp : Option EchoTCP)
  | undefined
deriving DecidableEq, Repr

/-- Embedding of `echotcp_new`.  `argv` holds the argument strings, `argv[0]`
first.  `getaddrinfo` sets its result pointer only when it returns `0`; the
code takes every return value other than `-1` for success and reads
`serverInfo->ai_addr` (`myInfo->ai_addr` in server mode), so for a return
value that is neither `0` nor `-1` the read is of an uninitialised pointer. -/
def echotcp_new (BUFFERSIZE : Nat) (env : SetupEnv) (argc : Int) (argv : List String) :
    NewResult × List Call :=
  if argc < 1 then (NewResult.returned none, [])
  else
    let mode := (argv.getD 0 "").toList
    if g_strncasecmp mode "client".toList 6 = 0 then
      if argc < 2 then (NewResult.returned none, [])
      else if env.getaddrinfo = -1 then
        (NewResult.returned none,
          [Call.getaddrinfo env.getaddrinfo,
           Call.log .warning "unable to create client: error in getaddrinfo"])
      else if env.getaddrinfo = 0 then
        let c := _echotcp_newClient BUFFERSIZE env.client env.addr
        (NewResult.returned (some { client := c.1, server := none }),
          Call.getaddrinfo env.getaddrinfo :: c.2)
      else (NewResult.undefined, [Call.getaddrinfo env.getaddrinfo])
    else if g_strncasecmp mode "server".toList 6 = 0 then
      if env.gethostname = 0 then
        if env.getaddrinfo = -1 then
          (NewResult.returned none,
            [Call.gethostname env.gethostname, Call.getaddrinfo env.getaddrinfo,
             Call.log .warning "unable to create server: error in getaddrinfo"])
        else if env.getaddrinfo = 0 then
          let s := _echotcp_newServer BUFFERSIZE env.server env.addr
          (NewResult.returned (some { client := none, server := s.1 }),
            Call.gethostname env.gethostname :: Call.getaddrinfo env.getaddrinfo :: s.2)
        else
          (NewResult.undefined,
            [Call.gethostname env.gethostname, Call.getaddrinfo env.getaddrinfo])
      else
        (NewResult.returned none,
          [Call.gethostname env.gethostname,
           Call.log .warning "unable to create server: error in gethostname"])
    else if g_strncasecmp mode "loopback".toList 8 = 0 then
      let s := _echotcp_newServer BUFFERSIZE env.server loopbackIP
      let c := _echotcp_newClient BUFFERSIZE env.client loopbackIP
      (NewResult.returned (some { client := c.1, server := s.1 }), s.2 ++ c.2)
    else if g_strncasecmp mode "socketpair".toList 10 = 0 then (NewResult.returned none, [])
    else (NewResult.returned none, [])

/-- One entry of the array filled by `epoll_wait`: the ready mask, the
descriptor, and the results of the system calls the readable handler and the
writable handler will make for it. -/
structure EpollEvent where
  events : Nat
  fd : Int
  rd : Env
  wr : Env

/-- The body of the `for` loop over the client events in `echotcp_ready`:
the readable handler when `EPOLLIN` is set, then the writable handler when
`EPOLLOUT` is set. -/
def clientEvent (BUFFERSIZE : Nat) (ec : EchoClient) (ev : EpollEvent) : EchoClient × List Call :=
  let r := if ev.events &&& EPOLLIN ≠ 0 then _echotcp_clientReadable ec ev.fd ev.rd
           else (ec, [])
  let w := if ev.events &&& EPOLLOUT ≠ 0 then _echotcp_clientWritable BUFFERSIZE r.1 ev.fd ev.wr
           else (r.1, [])
  (w.1, r.2 ++ w.2)

/-- The `for` loop over the client events in `echotcp_ready`. -/
def clientEvents (BUFFERSIZE : Nat) : EchoClient → List EpollEvent → EchoClient × List Call
  | ec, [] => (ec, [])
  | ec, ev :: rest =>
    let r := clientEvent BUFFERSIZE ec ev
    let n := clientEvents BUFFERSIZE r.1 rest
    (n.1, r.2 ++ n.2)

/-- The body of the `for` loop over the server events in `echotcp_ready`. -/
def serverEvent (BUFFERSIZE : Nat) (es : EchoServer) (ev : EpollEvent) : EchoServer × List Call :=
  let r := if ev.events &&& EPOLLIN ≠ 0 then _echotcp_serverReadable BUFFERSIZE es ev.fd ev.rd
           else (es, [])
  let w := if ev.events &&& EPOLLOUT ≠ 0 then _echotcp_serverWritable r.1 ev.fd ev.wr
           else (r.1, [])
  (w.1, r.2 ++ w.2)

/-- The `for` loop over the server events in `echotcp_ready`. -/
def serverEvents (BUFFERSIZE : Nat) : EchoServer → List EpollEvent → EchoServer × List Call
  | es, [] => (es, [])
  | es, ev :: rest =>
    let r := serverEvent BUFFERSIZE es ev
    let n := serverEvents BUFFERSIZE r.1 rest
    (n.1, r.2 ++ n.2)

/-- The reset at the end of the server part of `echotcp_ready`: both offsets
go back to `0` when they are equal. -/
def serverReset (es : EchoServer) : EchoServer :=
  if es.read_offset = es.write_offset then { es with read_offset := 0, write_offset := 0 }
  else es

/-- The client part of `echotcp_ready`.  `poll` is what `epoll_wait` reports:
`none` for the result `-1`, otherwise the ready events. -/
def readyClient (BUFFERSIZE : Nat) (ec : EchoClient) : Option (List EpollEvent) →
    EchoClient × List Call
  | none => (ec, [Call.log .warning "error in epoll_wait"])
  | some evs => clientEvents BUFFERSIZE ec evs

/-- The server part of `echotcp_ready`, the final reset included. -/
def readyServer (BUFFERSIZE : Nat) (es : EchoServer) : Option (List EpollEvent) →
    EchoServer × List Call
  | none => (serverReset es, [Call.log .warning "error in epoll_wait"])
  | some evs =>
    let r := serverEvents BUFFERSIZE es evs
    (serverReset r.1, r.2)

/-- What the two `epoll_wait` calls of one `echotcp_ready` call report (each is
consulted only when the session owns that role). -/
structure Tick where
  client : Option (List EpollEvent)
  server : Option (List EpollEvent)

/-- Embedding of `echotcp_ready`. -/
def echotcp_ready (BUFFERSIZE : Nat) (etcp : EchoTCP) (t : Tick) : EchoTCP × List Call :=
  let c : Option EchoClient × List Call :=
    match etcp.client with
    | none => (none, [])
    | some ec => let r := readyClient BUFFERSIZE ec t.client; (some r.1, r.2)
  let s : Option EchoServer × List Call :=
    match etcp.server with
    | none => (none, [])
    | some es => let r := readyServer BUFFERSIZE es t.server; (some r.1, r.2)
  ({ client := c.1, server := s.1 }, c.2 ++ s.2)

/-- A sequence of `echotcp_ready` calls, with all the calls issued. -/
def runTicks (BUFFERSIZE : Nat) : EchoTCP → List Tick → EchoTCP × List Call
  | etcp, [] => (etcp, [])
  | etcp, t :: rest =>
    let r := echotcp_ready BUFFERSIZE etcp t
    let n := runTicks BUFFERSIZE r.1 rest
    (n.1, r.2 ++ n.2)

/-- A sequence of server polls (the server part of successive ticks). -/
def runServer (BUFFERSIZE : Nat) : EchoServer → List (Option (List EpollEvent)) →
    EchoServer × List Call
  | es, [] => (es, [])
  | es, p :: rest =>
    let r := readyServer BUFFERSIZE es p
    let n := runServer BUFFERSIZE r.1 rest
    (n.1, r.2 ++ n.2)

/-- A sequence of client polls (the client part of successive ticks). -/
def runClient (BUFFERSIZE : Nat) : EchoClient → List (Option (List EpollEvent)) →
    EchoClient × List Call
  | ec, [] => (ec, [])
  | ec, p :: rest =>
    let r := readyClient BUFFERSIZE ec p
    let n := runClient BUFFERSIZE r.1 rest
    (n.1, r.2 ++ n.2)

/-! ## Invariants and observations used by the properties -/

/-- Whether a call is a `send`. -/
def Call.isSend : Call → Bool
  | .send _ _ _ => true
  | _ => false

/-- Whether a call is a log call (anything else is a system call). -/
def Call.isLog : Call → Bool
  | .log _ _ => true
  | _ => false

/-- The token selects the mode `name` (a lower-case word): its first
`name.length` characters, upper-case letters folded, spell `name`. -/
def isMode (token : List Char) (name : List Char) : Prop :=
  (token.take name.length).map Char.toLower = name

instance (token name : List Char) : Decidable (isMode token name) := by
  unfold isMode; infer_instance

/-- What holds of a session between two ticks: server offsets that are equal
are both `0`. -/
def settled (etcp : EchoTCP) : Prop :=
  ∀ es, etcp.server = some es → es.read_offset = es.write_offset →
    es.read_offset = 0 ∧ es.write_offset = 0

/-- The idle tick: both polls report an empty list of events. -/
def idleTick : Tick := { client := some [], server := some [] }

/-- The bytes delivered by the `recv` calls of a trace, in call order. -/
def recvBytes : List Call → List Byte
  | [] => []
  | Call.recv _ _ _ bytes :: rest => bytes ++ recvBytes rest
  | _ :: rest => recvBytes rest

/-- The bytes taken by the successful `send` calls of a trace, in call order:
the first `ret` of the bytes handed to each call with `ret > 0`. -/
def sentBytes : List Call → List Byte
  | [] => []
  | Call.send _ bytes ret :: rest =>
    (if ret > 0 then bytes.take ret.toNat else []) ++ sentBytes rest
  | _ :: rest => sentBytes rest

/-- The bytes the server has received and not yet echoed:
`echoBuffer[write_offset .. read_offset)`. -/
def pending (es : EchoServer) : List Byte :=
  slice es.echoBuffer es.write_offset es.read_offset

/-- Trace `tr` leads from `es` to `es1` with nothing lost or reordered: what
was pending followed by what was received is what was sent followed by what
is pending now. -/
def echoStep (es : EchoServer) (tr : List Call) (es1 : EchoServer) : Prop :=
  pending es ++ recvBytes tr = sentBytes tr ++ pending es1

/-- The texts logged at level `G_LOG_LEVEL_MESSAGE` in a trace, in order (the
client logs its verdict at that level and nothing else). -/
def messages : List Call → List String
  | [] => []
  | Call.log LogLevel.message msg :: rest => msg :: messages rest
  | _ :: rest => messages rest

/-- A poll that reports one event: socket `fd` readable, with `recvs` the
outcomes of the `recv` calls of the readable handler. -/
def readablePoll (fd : Int) (recvs : List RecvOutcome) : Option (List EpollEvent) :=
  some [{ events := EPOLLIN, fd := fd,
          rd := { recvs := recvs, send := SendOutcome.fail, accept := -1, ctl := 0,
                  rand := fun _ => 0 },
          wr := { recvs := [], send := SendOutcome.fail, accept := -1, ctl := 0,
                  rand := fun _ => 0 } }]

/-- The `recv` outcomes of one drain: the chunks, each delivered by one call,
then the result (`0` or `-1`) that ends the drain. -/
def drainScript (d : List (List Byte) × RecvOutcome) : List RecvOutcome :=
  d.1.map RecvOutcome.data ++ [d.2]

/-- The receive bound of the client as the code keeps it: `recv_offset` is at
most `amount_sent`, except that after a failed send `amount_sent` is `-1`
and `recv_offset` is `0`. -/
def clientBound (ec : EchoClient) : Prop :=
  ec.recv_offset ≤ ec.amount_sent ∨ (ec.recv_offset = 0 ∧ ec.amount_sent = -1)

/-- What holds of a client in every reachable state: both buffers have
`BUFFERSIZE` cells, `recv_offset` is not negative, `amount_sent` is at most
`BUFFERSIZE`, and nothing counts as sent before the send. -/
def clientWf (BUFFERSIZE : Nat) (ec : EchoClient) : Prop :=
  ec.sendBuffer.length = BUFFERSIZE ∧ ec.recvBuffer.length = BUFFERSIZE ∧
  0 ≤ ec.recv_offset ∧ ec.amount_sent ≤ (BUFFERSIZE : Int) ∧
  (ec.sent_msg = 0 → ec.amount_sent = 0)

/-- The offset invariant of the server: `0 <= write_offset <= read_offset <=
BUFFERSIZE`. -/
def serverInv (BUFFERSIZE : Nat) (es : EchoServer) : Prop :=
  0 ≤ es.write_offset ∧ es.write_offset ≤ es.read_offset ∧ es.read_offset ≤ (BUFFERSIZE : Int)

instance (BUFFERSIZE : Nat) (es : EchoServer) : Decidable (serverInv BUFFERSIZE es) := by
  unfold serverInv; infer_instance

/-- A server state with the offset invariant and a buffer of `BUFFERSIZE`
cells. -/
def serverWf (BUFFERSIZE : Nat) (es : EchoServer) : Prop :=
  serverInv BUFFERSIZE es ∧ es.echoBuffer.length = BUFFERSIZE

/-- The server state once the `for` loop of `echotcp_ready` has dispatched the
events of the poll, before the reset (`none`: `epoll_wait` returned `-1` and
the loop body never runs). -/
def serverDispatch (BUFFERSIZE : Nat) (es : EchoServer) : Option (List EpollEvent) → EchoServer
  | none => es
  | some evs => (serverEvents BUFFERSIZE es evs).1

/-- Whether a call is a `recv`. -/
def Call.isRecv : Call → Bool
  | .recv _ _ _ _ => true
  | _ => false

/-- The bytes delivered by the `recv` calls on socket `fd`, in call order. -/
def recvBytesOn (fd : Int) : List Call → List Byte
  | [] => []
  | Call.recv s _ _ bytes :: rest => (if s = fd then bytes else []) ++ recvBytesOn fd rest
  | _ :: rest => recvBytesOn fd rest

/-- The bytes taken by the successful `send` calls on socket `fd`, in call
order. -/
def sentBytesOn (fd : Int) : List Call → List Byte
  | [] => []
  | Call.send s bytes ret :: rest =>
    (if s = fd ∧ ret > 0 then bytes.take ret.toNat else []) ++ sentBytesOn fd rest
  | _ :: rest => sentBytesOn fd rest

/-- Call results that are never consulted: every call would fail. -/
def idleEnv : Env :=
  { recvs := [], send := SendOutcome.fail, accept := -1, ctl := 0, rand := fun _ => 0 }

/-- Two peers on one server: the listening socket `listend` accepts `p`, then
`q`; in the third tick `p` delivers the byte 1 and `q` the byte 2; in the
fourth tick `p` is writable and takes two bytes. -/
def twoPeerPolls (listend p q : Int) : List (Option (List EpollEvent)) :=
  [some [{ events := EPOLLIN, fd := listend, rd := { idleEnv with accept := p }, wr := idleEnv }],
   some [{ events := EPOLLIN, fd := listend, rd := { idleEnv with accept := q }, wr := idleEnv }],
   some [{ events := EPOLLIN, fd := p,
           rd := { idleEnv with recvs := [RecvOutcome.data [1]] }, wr := idleEnv },
         { events := EPOLLIN, fd := q,
           rd := { idleEnv with recvs := [RecvOutcome.data [2]] }, wr := idleEnv }],
   some [{ events := EPOLLOUT, fd := p, rd := idleEnv,
           wr := { idleEnv with send := SendOutcome.count 2 } }]]

/-- The calls of a trace that precede its first `recv`: what the server did
before any peer had data for it. -/
def beforeFirstRecv (tr : List Call) : List Call :=
  tr.takeWhile (fun c => !c.isRecv)

/-- The byte is an ASCII lower-case letter, `a` (97) to `z` (122). -/
def isLowercase (b : Byte) : Prop := 97 ≤ b.val ∧ b.val ≤ 122

instance (b : Byte) : Decidable (isLowercase b) := by
  unfold isLowercase; infer_instance

/-! ## Scallion plug-in, `src/scallion-tor.c` -/

/-- Constant `INT_MAX` of `limits.h` (32-bit `int`). -/
def INT_MAX : Int := 2147483647

/-- The `int` that holds an arithmetic result `x`: the value of `x` modulo
`2^32` in the range of a 32-bit two's-complement `int`.  Within that range it
is `x` itself; beyond it C leaves the result of signed arithmetic undefined,
and this is what the multiply instruction of the target delivers. -/
def wrapInt (x : Int) : Int := (x + 2 ^ 31) % 2 ^ 32 - 2 ^ 31

/-- Embedding of `intercept_rep_hist_bandwidth_assess`.  `bandwidth` is
`stor->bandwidth` of the active `ScallionTor` (declared in `scallion.h`, which
is not among the sources): the `int` that `scalliontor_new` stores from
`atoi(bandwidth)`. -/
def intercept_rep_hist_bandwidth_assess (bandwidth : Int) : Int :=
  let bw := INT_MAX
  if wrapInt (bandwidth * 1000) < bw then wrapInt (bandwidth * 1000) else bw

/-! ## Properties of the system-call interface -/

theorem sendCall_range (len : Nat) (o : SendOutcome) :
    sendCall len o = -1 ∨ (0 ≤ sendCall len o ∧ sendCall len o ≤ (len : Int)) := by
  cases o with
  | fail => left; rfl
  | count n => right; simp only [sendCall]; omega

theorem sendCall_count (len k : Nat) (h : k ≤ len) : sendCall len (.count k) = (k : Int) := by
  simp only [sendCall]; omega

theorem recvCall_range (len : Nat) (o : RecvOutcome) :
    ((recvCall len o).1 = -1 ∧ (recvCall len o).2 = []) ∨
    ((recvCall len o).1 = ((recvCall len o).2.length : Int) ∧ (recvCall len o).2.length ≤ len) := by
  cases o with
  | fail => left; exact ⟨rfl, rfl⟩
  | data bs => right; simp [recvCall]

theorem recvCall_data (len : Nat) (bs : List Byte) (h : bs.length ≤ len) :
    recvCall len (.data bs) = ((bs.length : Int), bs) := by
  simp [recvCall, List.take_of_length_le h]

/-! ## Server offsets -/

theorem serverReadable_inv (BUFFERSIZE : Nat) (es : EchoServer) (socketd : Int) (env : Env)
    (h : serverInv BUFFERSIZE es) :
    serverInv BUFFERSIZE (_echotcp_serverReadable BUFFERSIZE es socketd env).1 := by
  have hrng := recvCall_range ((BUFFERSIZE : Int) - es.read_offset).toNat (env.recvs.headD .fail)
  unfold serverInv at h ⊢
  unfold _echotcp_serverReadable
  dsimp only
  split_ifs <;> dsimp only <;> omega

theorem serverWritable_inv (BUFFERSIZE : Nat) (es : EchoServer) (socketd : Int) (env : Env)
    (h : serverInv BUFFERSIZE es) :
    serverInv BUFFERSIZE (_echotcp_serverWritable es socketd env).1 := by
  have hrng := sendCall_range (es.read_offset - es.write_offset).toNat env.send
  unfold serverInv at h ⊢
  unfold _echotcp_serverWritable
  dsimp only
  split_ifs <;> dsimp only <;> omega

theorem serverReset_inv (BUFFERSIZE : Nat) (es : EchoServer) (h : serverInv BUFFERSIZE es) :
    serverInv BUFFERSIZE (serverReset es) := by
  unfold serverReset
  split
  · simp [serverInv]
  · exact h

theorem freshServer_inv (BUFFERSIZE : Nat) (socketd epolld : Int) :
    serverInv BUFFERSIZE (freshServer BUFFERSIZE socketd epolld) := by
  simp [serverInv, freshServer]

/-- C2. The offsets of a freshly constructed server satisfy
`0 <= write_offset <= read_offset <= BUFFERSIZE`, and from any server state
that satisfies it, `_echotcp_serverReadable`, `_echotcp_serverWritable` (on any
socket, with any `recv`/`send`/`accept`/`epoll_ctl` result) and the reset at
the end of `echotcp_ready` lead to a state that satisfies it. -/
theorem server_offset_invariant (BUFFERSIZE : Nat) (es : EchoServer)
    (h : serverInv BUFFERSIZE es) :
    (∀ socketd epolld : Int, serverInv BUFFERSIZE (freshServer BUFFERSIZE socketd epolld)) ∧
    (∀ (socketd : Int) (env : Env),
      serverInv BUFFERSIZE (_echotcp_serverReadable BUFFERSIZE es socketd env).1) ∧
    (∀ (socketd : Int) (env : Env),
      serverInv BUFFERSIZE (_echotcp_serverWritable es socketd env).1) ∧
    serverInv BUFFERSIZE (serverReset es) :=
  ⟨freshServer_inv BUFFERSIZE,
   fun socketd env => serverReadable_inv BUFFERSIZE es socketd env h,
   fun socketd env => serverWritable_inv BUFFERSIZE es socketd env h,
   serverReset_inv BUFFERSIZE es h⟩

/-- C2, witness: a fresh server with `BUFFERSIZE = 4` and a readable event on
a peer socket that delivers three bytes. -/
theorem server_offset_invariant_witness :
    serverInv 4 (freshServer 4 5 6) ∧
    serverInv 4 (_echotcp_serverReadable 4 (freshServer 4 5 6) 7
      ⟨[RecvOutcome.data [1, 2, 3]], SendOutcome.fail, -1, 0, fun _ => 0⟩).1 :=
  ⟨by decide, (server_offset_invariant 4 (freshServer 4 5 6) (by decide)).2.1 7 _⟩

/-! ## Client: the receive loop and the handlers -/

theorem clientRecvLoop_idle (socketd : Int) (ec : EchoClient) (script : List RecvOutcome)
    (h : ¬ (ec.amount_sent - ec.recv_offset > 0)) :
    clientRecvLoop socketd ec script = (ec, []) := by
  cases script <;> simp only [clientRecvLoop, h, if_false]

/-- The receive loop touches only `recvBuffer` and `recv_offset`, and issues
no `send`. -/
theorem clientRecvLoop_frame (socketd : Int) (script : List RecvOutcome) :
    ∀ ec : EchoClient,
      (clientRecvLoop socketd ec script).1.sendBuffer = ec.sendBuffer ∧
      (clientRecvLoop socketd ec script).1.amount_sent = ec.amount_sent ∧
      (clientRecvLoop socketd ec script).1.sent_msg = ec.sent_msg ∧
      (clientRecvLoop socketd ec script).1.is_done = ec.is_done ∧
      ∀ c ∈ (clientRecvLoop socketd ec script).2, c.isSend = false := by
  induction script with
  | nil =>
    intro ec
    unfold clientRecvLoop
    split_ifs <;> simp [Call.isSend]
  | cons o rest ih =>
    intro ec
    unfold clientRecvLoop
    dsimp only
    split_ifs
    · obtain ⟨h1, h2, h3, h4, h5⟩ := ih
        { ec with
          recvBuffer := writeAt ec.recvBuffer ec.recv_offset.toNat
            (recvCall (ec.amount_sent - ec.recv_offset).toNat o).2,
          recv_offset := ec.recv_offset + (recvCall (ec.amount_sent - ec.recv_offset).toNat o).1 }
      refine ⟨h1, h2, h3, h4, ?_⟩
      intro c hc
      simp only [List.mem_cons] at hc
      rcases hc with rfl | rfl | hc
      · rfl
      · rfl
      · exact h5 c hc
    · simp [Call.isSend]
    · simp [Call.isSend]

/-- The readable handler of the client leaves `sendBuffer`, `amount_sent` and
`sent_msg` alone and issues no `send`. -/
theorem clientReadable_frame (ec : EchoClient) (socketd : Int) (env : Env) :
    (_echotcp_clientReadable ec socketd env).1.sendBuffer = ec.sendBuffer ∧
    (_echotcp_clientReadable ec socketd env).1.amount_sent = ec.amount_sent ∧
    (_echotcp_clientReadable ec socketd env).1.sent_msg = ec.sent_msg ∧
    ∀ c ∈ (_echotcp_clientReadable ec socketd env).2, c.isSend = false := by
  obtain ⟨h1, h2, h3, _, h5⟩ := clientRecvLoop_frame socketd env.recvs ec
  unfold _echotcp_clientReadable
  dsimp only
  split_ifs <;> refine ⟨by first | exact h1 | rfl, by first | exact h2 | rfl,
      by first | exact h3 | rfl, ?_⟩ <;>
    (intro c hc
     simp only [List.mem_cons, List.mem_append, List.mem_singleton, List.not_mem_nil,
       or_false] at hc
     (try casesm* _ ∨ _) <;> first | exact h5 c ‹_› | (subst_vars; rfl))

/-- Once `sent_msg` is set the writable handler of the client does nothing. -/
theorem clientWritable_sent (BUFFERSIZE : Nat) (ec : EchoClient) (socketd : Int) (env : Env)
    (h : ec.sent_msg ≠ 0) : _echotcp_clientWritable BUFFERSIZE ec socketd env = (ec, []) := by
  simp only [_echotcp_clientWritable, h, if_false]

/-- The writable handler of the client always leaves `sent_msg` set. -/
theorem clientWritable_sets_sent (BUFFERSIZE : Nat) (ec : EchoClient) (socketd : Int)
    (env : Env) : (_echotcp_clientWritable BUFFERSIZE ec socketd env).1.sent_msg ≠ 0 := by
  by_cases h : ec.sent_msg = 0
  · simp only [_echotcp_clientWritable, h, if_true]
    split_ifs <;> simp
  · rw [clientWritable_sent BUFFERSIZE ec socketd env h]
    exact h

/-- With `sent_msg` set, one client event leaves `sendBuffer`, `amount_sent`
and `sent_msg` alone and issues no `send`. -/
theorem clientEvent_frozen (BUFFERSIZE : Nat) (ec : EchoClient) (ev : EpollEvent)
    (hs : ec.sent_msg ≠ 0) :
    (clientEvent BUFFERSIZE ec ev).1.sendBuffer = ec.sendBuffer ∧
    (clientEvent BUFFERSIZE ec ev).1.amount_sent = ec.amount_sent ∧
    (clientEvent BUFFERSIZE ec ev).1.sent_msg = ec.sent_msg ∧
    ∀ c ∈ (clientEvent BUFFERSIZE ec ev).2, c.isSend = false := by
  obtain ⟨r1, r2, r3, r4⟩ := clientReadable_frame ec ev.fd ev.rd
  have hs1 : (_echotcp_clientReadable ec ev.fd ev.rd).1.sent_msg ≠ 0 := by rw [r3]; exact hs
  have w1 := clientWritable_sent BUFFERSIZE _ ev.fd ev.wr hs1
  have w2 := clientWritable_sent BUFFERSIZE ec ev.fd ev.wr hs
  by_cases hin : ev.events &&& EPOLLIN ≠ 0 <;> by_cases hout : ev.events &&& EPOLLOUT ≠ 0
  · simp only [clientEvent, if_pos hin, if_pos hout, w1]
    exact ⟨r1, r2, r3, by simpa using r4⟩
  · simp only [clientEvent, if_pos hin, if_neg hout]
    exact ⟨r1, r2, r3, by simpa using r4⟩
  · simp [clientEvent, if_neg hin, if_pos hout, w2]
  · simp [clientEvent, if_neg hin, if_neg hout]

/-- With `sent_msg` set, a pass over client events leaves `sendBuffer`,
`amount_sent` and `sent_msg` alone and issues no `send`. -/
theorem clientEvents_frozen (BUFFERSIZE : Nat) (evs : List EpollEvent) :
    ∀ ec : EchoClient, ec.sent_msg ≠ 0 →
      (clientEvents BUFFERSIZE ec evs).1.sendBuffer = ec.sendBuffer ∧
      (clientEvents BUFFERSIZE ec evs).1.amount_sent = ec.amount_sent ∧
      (clientEvents BUFFERSIZE ec evs).1.sent_msg = ec.sent_msg ∧
      ∀ c ∈ (clientEvents BUFFERSIZE ec evs).2, c.isSend = false := by
  induction evs with
  | nil => intro ec _; simp [clientEvents]
  | cons ev rest ih =>
    intro ec hs
    obtain ⟨r1, r2, r3, r4⟩ := clientEvent_frozen BUFFERSIZE ec ev hs
    have hs1 : (clientEvent BUFFERSIZE ec ev).1.sent_msg ≠ 0 := by rw [r3]; exact hs
    obtain ⟨i1, i2, i3, i4⟩ := ih _ hs1
    unfold clientEvents
    dsimp only
    refine ⟨i1.trans r1, i2.trans r2, i3.trans r3, ?_⟩
    intro c hc
    simp only [List.mem_append] at hc
    rcases hc with hc | hc
    · exact r4 c hc
    · exact i4 c hc

theorem readyClient_frozen (BUFFERSIZE : Nat) (ec : EchoClient)
    (poll : Option (List EpollEvent)) (hs : ec.sent_msg ≠ 0) :
    (readyClient BUFFERSIZE ec poll).1.sendBuffer = ec.sendBuffer ∧
    (readyClient BUFFERSIZE ec poll).1.amount_sent = ec.amount_sent ∧
    (readyClient BUFFERSIZE ec poll).1.sent_msg = ec.sent_msg ∧
    ∀ c ∈ (readyClient BUFFERSIZE ec poll).2, c.isSend = false := by
  cases poll with
  | none => simp [readyClient, Call.isSend]
  | some evs => exact clientEvents_frozen BUFFERSIZE evs ec hs

theorem runClient_frozen (BUFFERSIZE : Nat) (polls : List (Option (List EpollEvent))) :
    ∀ ec : EchoClient, ec.sent_msg ≠ 0 →
      (runClient BUFFERSIZE ec polls).1.sendBuffer = ec.sendBuffer ∧
      (runClient BUFFERSIZE ec polls).1.amount_sent = ec.amount_sent ∧
      (runClient BUFFERSIZE ec polls).1.sent_msg = ec.sent_msg ∧
      ∀ c ∈ (runClient BUFFERSIZE ec polls).2, c.isSend = false := by
  induction polls with
  | nil => intro ec _; simp [runClient]
  | cons poll rest ih =>
    intro ec hs
    obtain ⟨r1, r2, r3, r4⟩ := readyClient_frozen BUFFERSIZE ec poll hs
    have hs1 : (readyClient BUFFERSIZE ec poll).1.sent_msg ≠ 0 := by rw [r3]; exact hs
    obtain ⟨i1, i2, i3, i4⟩ := ih _ hs1
    unfold runClient
    dsimp only
    refine ⟨i1.trans r1, i2.trans r2, i3.trans r3, ?_⟩
    intro c hc
    simp only [List.mem_append] at hc
    rcases hc with hc | hc
    · exact r4 c hc
    · exact i4 c hc

/-- C6. After a writable event (the one that performs the client's single
send, whatever count the send reports) `sent_msg` is set, and over every later
sequence of polls, with any readable and writable events and any call results,
no `send` call is issued and `amount_sent` and `sendBuffer` keep the values
they had after that event. -/
theorem client_single_send_freeze (BUFFERSIZE : Nat) (ec : EchoClient) (socketd : Int)
    (env : Env) (polls : List (Option (List EpollEvent))) :
    (_echotcp_clientWritable BUFFERSIZE ec socketd env).1.sent_msg ≠ 0 ∧
    (runClient BUFFERSIZE (_echotcp_clientWritable BUFFERSIZE ec socketd env).1 polls).1.amount_sent
      = (_echotcp_clientWritable BUFFERSIZE ec socketd env).1.amount_sent ∧
    (runClient BUFFERSIZE (_echotcp_clientWritable BUFFERSIZE ec socketd env).1 polls).1.sendBuffer
      = (_echotcp_clientWritable BUFFERSIZE ec socketd env).1.sendBuffer ∧
    (∀ c ∈ (runClient BUFFERSIZE (_echotcp_clientWritable BUFFERSIZE ec socketd env).1 polls).2,
      c.isSend = false) := by
  have hs := clientWritable_sets_sent BUFFERSIZE ec socketd env
  obtain ⟨i1, i2, _, i4⟩ := runClient_frozen BUFFERSIZE polls _ hs
  exact ⟨hs, i2, i1, i4⟩

/-! ## Client: a failed send and an early readable event -/

/-- C3. On the first writable event of a freshly constructed client, a failing
`send` (result `-1`) is added to `amount_sent` unchecked: `amount_sent` becomes
`-1` while `recv_offset` is `0`, so `recv_offset <= amount_sent` does not
hold after the event. -/
theorem client_recv_bound_broken_by_failed_send (BUFFERSIZE : Nat) (socketd epolld : Int)
    (serverIP : Nat) (env : Env) :
    (_echotcp_clientWritable BUFFERSIZE (freshClient BUFFERSIZE socketd epolld serverIP) socketd
        { env with send := SendOutcome.fail }).1.amount_sent = -1 ∧
    (_echotcp_clientWritable BUFFERSIZE (freshClient BUFFERSIZE socketd epolld serverIP) socketd
        { env with send := SendOutcome.fail }).1.recv_offset = 0 ∧
    ¬ ((_echotcp_clientWritable BUFFERSIZE (freshClient BUFFERSIZE socketd epolld serverIP) socketd
        { env with send := SendOutcome.fail }).1.recv_offset ≤
       (_echotcp_clientWritable BUFFERSIZE (freshClient BUFFERSIZE socketd epolld serverIP) socketd
        { env with send := SendOutcome.fail }).1.amount_sent) := by
  simp only [_echotcp_clientWritable, freshClient, sendCall, if_true]
  split_ifs <;> simp

/-- C4. After a failing first `send` (`amount_sent = -1`), the next readable
event sets `is_done` although `recv_offset` (`0`) differs from `amount_sent`
(`-1`). -/
theorem client_done_with_unequal_counters (BUFFERSIZE : Nat) (socketd epolld : Int)
    (serverIP : Nat) (wenv renv : Env) :
    (_echotcp_clientReadable
      (_echotcp_clientWritable BUFFERSIZE (freshClient BUFFERSIZE socketd epolld serverIP) socketd
        { wenv with send := SendOutcome.fail }).1 socketd renv).1.is_done = 1 ∧
    (_echotcp_clientReadable
      (_echotcp_clientWritable BUFFERSIZE (freshClient BUFFERSIZE socketd epolld serverIP) socketd
        { wenv with send := SendOutcome.fail }).1 socketd renv).1.recv_offset = 0 ∧
    (_echotcp_clientReadable
      (_echotcp_clientWritable BUFFERSIZE (freshClient BUFFERSIZE socketd epolld serverIP) socketd
        { wenv with send := SendOutcome.fail }).1 socketd renv).1.amount_sent = -1 := by
  have hw : (_echotcp_clientWritable BUFFERSIZE (freshClient BUFFERSIZE socketd epolld serverIP)
      socketd { wenv with send := SendOutcome.fail }).1 =
      { freshClient BUFFERSIZE socketd epolld serverIP with
        sendBuffer := _echotcp_fillCharBuffer wenv.rand
          (freshClient BUFFERSIZE socketd epolld serverIP).sendBuffer (BUFFERSIZE - 1),
        sent_msg := 1, amount_sent := -1 } := by
    simp only [_echotcp_clientWritable, freshClient, sendCall, if_true]
    split_ifs <;> simp
  rw [hw]
  unfold _echotcp_clientReadable
  rw [clientRecvLoop_idle _ _ _ (by simp [freshClient])]
  simp [freshClient]

theorem clientReadable_fresh (BUFFERSIZE : Nat) (socketd epolld : Int) (serverIP : Nat)
    (fd : Int) (env : Env) :
    (_echotcp_clientReadable (freshClient BUFFERSIZE socketd epolld serverIP) fd env).1 =
      { freshClient BUFFERSIZE socketd epolld serverIP with is_done := 1 } := by
  unfold _echotcp_clientReadable
  rw [clientRecvLoop_idle _ _ _ (by simp [freshClient])]
  simp [freshClient]

/-- C7. A readable event on a freshly constructed client sets `is_done`
(`recv_offset = 0 >= amount_sent = 0`) before anything was sent; the writable
handler tests only `sent_msg`, so a writable event in that completed state
still fills `sendBuffer`, issues a `send` and changes `sent_msg` and
`amount_sent`. -/
theorem client_done_state_still_sends (BUFFERSIZE : Nat) (socketd epolld : Int)
    (serverIP : Nat) (renv wenv : Env) :
    (_echotcp_clientReadable (freshClient BUFFERSIZE socketd epolld serverIP) socketd renv).1.is_done
      = 1 ∧
    (_echotcp_clientReadable (freshClient BUFFERSIZE socketd epolld serverIP) socketd renv).1.sent_msg
      = 0 ∧
    (_echotcp_clientWritable BUFFERSIZE
      (_echotcp_clientReadable (freshClient BUFFERSIZE socketd epolld serverIP) socketd renv).1
      socketd wenv).1.sent_msg = 1 ∧
    (_echotcp_clientWritable BUFFERSIZE
      (_echotcp_clientReadable (freshClient BUFFERSIZE socketd epolld serverIP) socketd renv).1
      socketd wenv).1.amount_sent = sendCall BUFFERSIZE wenv.send ∧
    Call.send socketd
        (_echotcp_fillCharBuffer wenv.rand (List.replicate BUFFERSIZE 0) (BUFFERSIZE - 1))
        (sendCall BUFFERSIZE wenv.send) ∈
      (_echotcp_clientWritable BUFFERSIZE
        (_echotcp_clientReadable (freshClient BUFFERSIZE socketd epolld serverIP) socketd renv).1
        socketd wenv).2 := by
  rw [clientReadable_fresh]
  simp only [_echotcp_clientWritable, freshClient, if_true]
  split_ifs <;> simp

/-- Once `is_done` and `sent_msg` are both set, a client event changes no field
and issues nothing but the debug log line of the readable handler. -/
theorem clientEvent_done_and_sent (BUFFERSIZE : Nat) (ec : EchoClient) (ev : EpollEvent)
    (hd : ec.is_done ≠ 0) (hs : ec.sent_msg ≠ 0) :
    (clientEvent BUFFERSIZE ec ev).1 = ec ∧
    ∀ c ∈ (clientEvent BUFFERSIZE ec ev).2, c.isLog = true := by
  have hr : _echotcp_clientReadable ec ev.fd ev.rd
      = (ec, [Call.log .debug "trying to read socket %i"]) := by
    simp only [_echotcp_clientReadable, hd, if_false]
  have w2 := clientWritable_sent BUFFERSIZE ec ev.fd ev.wr hs
  by_cases hin : ev.events &&& EPOLLIN ≠ 0 <;> by_cases hout : ev.events &&& EPOLLOUT ≠ 0
  · simp [clientEvent, if_pos hin, if_pos hout, hr, w2, Call.isLog]
  · simp [clientEvent, if_pos hin, if_neg hout, hr, Call.isLog]
  · simp [clientEvent, if_neg hin, if_pos hout, w2]
  · simp [clientEvent, if_neg hin, if_neg hout]

/-! ## Session construction -/

theorem char_toNat_inj (c d : Char) (h : c.toNat = d.toNat) : c = d := by
  rw [← Char.ofNat_toNat c, ← Char.ofNat_toNat d, h]

/-- For a word `t` without NUL and `n` within it, `g_strncasecmp s t n` is `0`
exactly when the first `n` characters of `s` and of `t` agree up to case. -/
theorem g_strncasecmp_eq_zero_iff :
    ∀ (n : Nat) (s t : List Char), (∀ c ∈ t, c.toNat ≠ 0) → n ≤ t.length →
      (g_strncasecmp s t n = 0 ↔ (s.take n).map Char.toLower = (t.take n).map Char.toLower) := by
  intro n
  induction n with
  | zero => intro s t _ _; simp [g_strncasecmp]
  | succ n ih =>
    intro s t ht hn
    cases t with
    | nil => simp at hn
    | cons c2 t2 =>
      have hc2 : c2.toNat ≠ 0 := ht c2 (by simp)
      cases s with
      | nil =>
        simp only [g_strncasecmp, List.take_nil, List.map_nil, List.take_succ_cons, List.map_cons]
        constructor
        · intro h; omega
        · intro h; simp at h
      | cons c1 s1 =>
        simp only [g_strncasecmp, List.take_succ_cons, List.map_cons]
        by_cases hd : c1.toLower = c2.toLower
        · simp only [hd, ne_eq, not_true_eq_false, if_false, List.cons.injEq, true_and]
          exact ih s1 t2 (fun c hc => ht c (by simp [hc])) (by simpa using hn)
        · simp only [ne_eq, hd, not_false_eq_true, if_true, List.cons.injEq, false_and, iff_false]
          intro h
          apply hd
          apply char_toNat_inj
          omega

theorem client_mode_test (mode : List Char) :
    g_strncasecmp mode "client".toList 6 = 0 ↔ isMode mode "client".toList := by
  rw [g_strncasecmp_eq_zero_iff 6 mode "client".toList (by decide) (by decide)]
  exact Iff.rfl

theorem server_mode_test (mode : List Char) :
    g_strncasecmp mode "server".toList 6 = 0 ↔ isMode mode "server".toList := by
  rw [g_strncasecmp_eq_zero_iff 6 mode "server".toList (by decide) (by decide)]
  exact Iff.rfl

theorem loopback_mode_test (mode : List Char) :
    g_strncasecmp mode "loopback".toList 8 = 0 ↔ isMode mode "loopback".toList := by
  rw [g_strncasecmp_eq_zero_iff 8 mode "loopback".toList (by decide) (by decide)]
  exact Iff.rfl

/-- C8 (as amended). A mode token whose first six characters do not spell
`client` or `server` and whose first eight do not spell `loopback`, letter case
ignored, makes `echotcp_new` return no session, for every `argc` and every
further argument, without a single call: neither role constructor runs. -/
theorem echotcp_new_rejects_other_modes (BUFFERSIZE : Nat) (env : SetupEnv) (argc : Int)
    (argv : List String)
    (hc : ¬ isMode (argv.getD 0 "").toList "client".toList)
    (hs : ¬ isMode (argv.getD 0 "").toList "server".toList)
    (hl : ¬ isMode (argv.getD 0 "").toList "loopback".toList) :
    echotcp_new BUFFERSIZE env argc argv = (NewResult.returned none, []) := by
  unfold echotcp_new
  dsimp only
  rw [← client_mode_test] at hc
  rw [← server_mode_test] at hs
  rw [← loopback_mode_test] at hl
  rw [if_neg hc, if_neg hs, if_neg hl]
  split_ifs <;> rfl

/-- C8, witness: the tokens `bogus` and `socketpair` are rejected. -/
theorem echotcp_new_rejects_other_modes_witness :
    echotcp_new 4 ⟨0, 0, 9, ⟨3, 0, 0, 0, 0, 4, 0⟩, ⟨5, 0, 0, 0, 0, 6, 0⟩⟩ 2 ["bogus", "host"]
      = (NewResult.returned none, []) ∧
    echotcp_new 4 ⟨0, 0, 9, ⟨3, 0, 0, 0, 0, 4, 0⟩, ⟨5, 0, 0, 0, 0, 6, 0⟩⟩ 1 ["socketpair"]
      = (NewResult.returned none, []) :=
  ⟨echotcp_new_rejects_other_modes 4 _ 2 ["bogus", "host"] (by decide) (by decide) (by decide),
   echotcp_new_rejects_other_modes 4 _ 1 ["socketpair"] (by decide) (by decide) (by decide)⟩

/-- C8, counterexample: the token `CLIENTELE` is not `client`, `server` or
`loopback`, yet `echotcp_new` takes it for the client mode, constructs a
client and returns a session. -/
theorem echotcp_new_accepts_inexact_token :
    "CLIENTELE" ≠ "client" ∧ "CLIENTELE" ≠ "server" ∧ "CLIENTELE" ≠ "loopback" ∧
    (echotcp_new 4 ⟨0, 0, 9, ⟨3, 0, 0, 0, 0, 4, 0⟩, ⟨5, 0, 0, 0, 0, 6, 0⟩⟩ 2
        ["CLIENTELE", "host"]).1
      = NewResult.returned (some { client := some (freshClient 4 3 4 9), server := none }) := by
  decide

/-- What `echotcp_new` comes to, mode by mode, with `argc >= 1`.  In client
mode: no session when `argc < 2` or `getaddrinfo` returns `-1`; with
`getaddrinfo` returning `0`, a session whose client is whatever
`_echotcp_newClient` returns, `NULL` included; for any other return value of
`getaddrinfo`, undefined behaviour.  In server mode: no session when
`gethostname` returns non-zero or `getaddrinfo` returns `-1`; with both
returning `0`, a session whose server is whatever `_echotcp_newServer`
returns, `NULL` included; for any other return value of `getaddrinfo`,
undefined behaviour.  In loopback mode: always a session holding whatever the
two constructors return. -/
theorem echotcp_new_failure_outcomes (BUFFERSIZE : Nat) (env : SetupEnv) (argc : Int)
    (argv : List String) (hargc : 1 ≤ argc) :
    (isMode (argv.getD 0 "").toList "client".toList →
      (argc < 2 → (echotcp_new BUFFERSIZE env argc argv).1 = NewResult.returned none) ∧
      (env.getaddrinfo = -1 →
        (echotcp_new BUFFERSIZE env argc argv).1 = NewResult.returned none) ∧
      (2 ≤ argc → env.getaddrinfo = 0 → (echotcp_new BUFFERSIZE env argc argv).1 =
        NewResult.returned
          (some { client := (_echotcp_newClient BUFFERSIZE env.client env.addr).1,
                  server := none })) ∧
      (2 ≤ argc → env.getaddrinfo ≠ 0 → env.getaddrinfo ≠ -1 →
        (echotcp_new BUFFERSIZE env argc argv).1 = NewResult.undefined)) ∧
    (¬ isMode (argv.getD 0 "").toList "client".toList →
     isMode (argv.getD 0 "").toList "server".toList →
      (env.gethostname ≠ 0 →
        (echotcp_new BUFFERSIZE env argc argv).1 = NewResult.returned none) ∧
      (env.getaddrinfo = -1 →
        (echotcp_new BUFFERSIZE env argc argv).1 = NewResult.returned none) ∧
      (env.gethostname = 0 → env.getaddrinfo = 0 →
        (echotcp_new BUFFERSIZE env argc argv).1 =
          NewResult.returned
            (some { client := none,
                    server := (_echotcp_newServer BUFFERSIZE env.server env.addr).1 })) ∧
      (env.gethostname = 0 → env.getaddrinfo ≠ 0 → env.getaddrinfo ≠ -1 →
        (echotcp_new BUFFERSIZE env argc argv).1 = NewResult.undefined)) ∧
    (¬ isMode (argv.getD 0 "").toList "client".toList →
     ¬ isMode (argv.getD 0 "").toList "server".toList →
     isMode (argv.getD 0 "").toList "loopback".toList →
      (echotcp_new BUFFERSIZE env argc argv).1 =
        NewResult.returned
          (some { client := (_echotcp_newClient BUFFERSIZE env.client loopbackIP).1,
                  server := (_echotcp_newServer BUFFERSIZE env.server loopbackIP).1 })) := by
  have h1 : ¬ argc < 1 := by omega
  refine ⟨?_, ?_, ?_⟩
  · intro hc
    rw [← client_mode_test] at hc
    unfold echotcp_new
    dsimp only
    rw [if_neg h1, if_pos hc]
    refine ⟨?_, ?_, ?_, ?_⟩
    · intro h2; rw [if_pos h2]
    · intro hg; split_ifs <;> rfl
    · intro h2 hg
      have h3 : ¬ argc < 2 := by omega
      have h4 : ¬ env.getaddrinfo = -1 := by omega
      rw [if_neg h3, if_neg h4, if_pos hg]
    · intro h2 hg0 hg1
      have h3 : ¬ argc < 2 := by omega
      rw [if_neg h3, if_neg hg1, if_neg hg0]
  · intro hc hs
    rw [← client_mode_test] at hc
    rw [← server_mode_test] at hs
    unfold echotcp_new
    dsimp only
    rw [if_neg h1, if_neg hc, if_pos hs]
    refine ⟨?_, ?_, ?_, ?_⟩
    · intro hh; rw [if_neg hh]
    · intro hg; split_ifs <;> rfl
    · intro hh hg
      have h4 : ¬ env.getaddrinfo = -1 := by omega
      rw [if_pos hh, if_neg h4, if_pos hg]
    · intro hh hg0 hg1
      rw [if_pos hh, if_neg hg1, if_neg hg0]
  · intro hc hs hl
    rw [← client_mode_test] at hc
    rw [← server_mode_test] at hs
    rw [← loopback_mode_test] at hl
    unfold echotcp_new
    dsimp only
    rw [if_neg h1, if_neg hc, if_neg hs, if_pos hl]

/-- In loopback mode with `socket` failing in both constructors,
`_echotcp_newServer` and `_echotcp_newClient` return `NULL` and `echotcp_new`
still returns a session (one with neither role). -/
theorem echotcp_new_session_despite_null_roles :
    (_echotcp_newServer 4 ⟨-1, 0, 0, 0, 0, 6, 0⟩ loopbackIP).1 = none ∧
    (_echotcp_newClient 4 ⟨-1, 0, 0, 0, 0, 4, 0⟩ loopbackIP).1 = none ∧
    (echotcp_new 4 ⟨0, 0, 9, ⟨-1, 0, 0, 0, 0, 4, 0⟩, ⟨-1, 0, 0, 0, 0, 6, 0⟩⟩ 1 ["loopback"]).1
      = NewResult.returned (some { client := none, server := none }) := by
  decide

/-- Client mode with `getaddrinfo` returning `0` and `socket` failing in
`_echotcp_newClient`: a session without a client is returned. -/
theorem echotcp_new_failure_outcomes_witness :
    (1 : Int) ≤ 2 ∧ isMode ("client".toList) "client".toList ∧
    (echotcp_new 4 ⟨0, 0, 9, ⟨-1, 0, 0, 0, 0, 4, 0⟩, ⟨5, 0, 0, 0, 0, 6, 0⟩⟩ 2
        ["client", "host"]).1
      = NewResult.returned
          (some { client := (_echotcp_newClient 4 ⟨-1, 0, 0, 0, 0, 4, 0⟩ 9).1,
                  server := none }) :=
  ⟨by decide, by decide,
   ((echotcp_new_failure_outcomes 4 ⟨0, 0, 9, ⟨-1, 0, 0, 0, 0, 4, 0⟩, ⟨5, 0, 0, 0, 0, 6, 0⟩⟩ 2
      ["client", "host"] (by decide)).1 (by decide)).2.2.1 (by decide) (by decide)⟩

/-- C9. When `getaddrinfo` reports the error `-2` (`EAI_NONAME`, the host name
is not known), `echotcp_new` does not return `NULL`: the test
`getaddrinfo(...) == -1` lets the error through, and the code goes on to read
the address through the result pointer that `getaddrinfo` never set.  This
holds in client mode and, with `gethostname` succeeding, in server mode, for
every `BUFFERSIZE` and whatever the other calls would return. -/
theorem echotcp_new_reads_unset_addrinfo (BUFFERSIZE : Nat) (env : SetupEnv) :
    echotcp_new BUFFERSIZE { env with getaddrinfo := -2 } 2 ["client", "nohost"]
      = (NewResult.undefined, [Call.getaddrinfo (-2)]) ∧
    echotcp_new BUFFERSIZE { env with gethostname := 0, getaddrinfo := -2 } 1 ["server"]
      = (NewResult.undefined, [Call.gethostname 0, Call.getaddrinfo (-2)]) ∧
    NewResult.undefined ≠ NewResult.returned none := by
  have hc : g_strncasecmp "client".toList "client".toList 6 = 0 := by decide
  have hnc : ¬ g_strncasecmp "server".toList "client".toList 6 = 0 := by decide
  have hs : g_strncasecmp "server".toList "server".toList 6 = 0 := by decide
  refine ⟨?_, ?_, by decide⟩
  · simp only [echotcp_new, List.getD_cons_zero, hc, if_true]
    rw [if_neg (by decide), if_neg (by decide), if_neg (by decide), if_neg (by decide)]
  · simp only [echotcp_new, List.getD_cons_zero, hnc, hs, if_true, if_false]
    rw [if_neg (by decide), if_neg (by decide), if_neg (by decide)]

/-! ## Ticks -/

theorem serverReset_settled (es : EchoServer) :
    (serverReset es).read_offset = (serverReset es).write_offset →
      (serverReset es).read_offset = 0 ∧ (serverReset es).write_offset = 0 := by
  unfold serverReset
  split_ifs with h
  · intro _; exact ⟨rfl, rfl⟩
  · intro h2; exact absurd h2 h

theorem serverReset_of_settled (es : EchoServer)
    (h : es.read_offset = es.write_offset → es.read_offset = 0 ∧ es.write_offset = 0) :
    serverReset es = es := by
  unfold serverReset
  split_ifs with he
  · obtain ⟨h1, h2⟩ := h he
    cases es
    simp only at h1 h2
    simp [h1, h2]
  · rfl

theorem echotcp_new_settled (BUFFERSIZE : Nat) (env : SetupEnv) (argc : Int)
    (argv : List String) (s0 : EchoTCP)
    (h : (echotcp_new BUFFERSIZE env argc argv).1 = NewResult.returned (some s0)) :
    settled s0 := by
  have hsrv : ∀ (ne : NewEnv) (ip : Nat) (es : EchoServer),
      (_echotcp_newServer BUFFERSIZE ne ip).1 = some es →
        es.read_offset = 0 ∧ es.write_offset = 0 := by
    intro ne ip es hes
    unfold _echotcp_newServer at hes
    split_ifs at hes
    all_goals simp only [reduceCtorEq, Option.some.injEq] at hes
    subst hes
    exact ⟨rfl, rfl⟩
  unfold echotcp_new at h
  dsimp only at h
  intro es hes _
  split_ifs at h <;>
    simp only [reduceCtorEq, NewResult.returned.injEq, Option.some.injEq] at h <;>
    subst h <;> simp only [reduceCtorEq] at hes
  · exact hsrv _ _ _ hes
  · exact hsrv _ _ _ hes

theorem echotcp_ready_settled (BUFFERSIZE : Nat) (etcp : EchoTCP) (t : Tick) :
    settled (echotcp_ready BUFFERSIZE etcp t).1 := by
  intro es hes
  unfold echotcp_ready at hes
  dsimp only at hes
  cases hsv : etcp.server with
  | none => simp [hsv] at hes
  | some es0 =>
    simp only [hsv, Option.some.injEq] at hes
    subst hes
    cases t.server with
    | none => exact serverReset_settled _
    | some evs => exact serverReset_settled _

theorem runTicks_settled (BUFFERSIZE : Nat) (ticks : List Tick) :
    ∀ etcp : EchoTCP, settled etcp → settled (runTicks BUFFERSIZE etcp ticks).1 := by
  induction ticks with
  | nil => intro etcp h; exact h
  | cons t rest ih =>
    intro etcp _
    unfold runTicks
    exact ih _ (echotcp_ready_settled BUFFERSIZE etcp t)

theorem echotcp_ready_idle (BUFFERSIZE : Nat) (etcp : EchoTCP) (h : settled etcp) :
    echotcp_ready BUFFERSIZE etcp idleTick = (etcp, []) := by
  cases etcp with
  | mk client server =>
    cases client <;> cases server <;>
      simp only [echotcp_ready, idleTick, readyClient, readyServer, clientEvents, serverEvents,
        List.append_nil]
    · rename_i es
      rw [serverReset_of_settled es (h es rfl)]
    · rename_i ec es
      rw [serverReset_of_settled es (h es rfl)]

/-- C10. In every session state reached from construction by any sequence of
ticks, a call of `echotcp_ready` whose polls report no events returns the same
session state (client and server fields alike) and issues no call at all. -/
theorem idle_tick_is_noop (BUFFERSIZE : Nat) (env : SetupEnv) (argc : Int) (argv : List String)
    (s0 : EchoTCP)
    (h : (echotcp_new BUFFERSIZE env argc argv).1 = NewResult.returned (some s0))
    (ticks : List Tick) :
    echotcp_ready BUFFERSIZE (runTicks BUFFERSIZE s0 ticks).1 idleTick
      = ((runTicks BUFFERSIZE s0 ticks).1, []) :=
  echotcp_ready_idle BUFFERSIZE _
    (runTicks_settled BUFFERSIZE ticks s0 (echotcp_new_settled BUFFERSIZE env argc argv s0 h))

/-- C10, witness: a loopback session with `BUFFERSIZE = 2`, after one tick in
which the client socket is writable and the listening socket readable. -/
theorem idle_tick_is_noop_witness :
    (echotcp_new 2 ⟨0, 0, 9, ⟨3, 0, 0, 0, 0, 4, 0⟩, ⟨5, 0, 0, 0, 0, 6, 0⟩⟩ 1 ["loopback"]).1
      = NewResult.returned (some { client := some (freshClient 2 3 4 loopbackIP),
                                   server := some (freshServer 2 5 6) }) ∧
    echotcp_ready 2
      (runTicks 2 { client := some (freshClient 2 3 4 loopbackIP),
                    server := some (freshServer 2 5 6) }
        [{ client := some [⟨EPOLLOUT, 3, ⟨[], SendOutcome.fail, -1, 0, fun _ => 0⟩,
                            ⟨[], SendOutcome.count 2, -1, 0, fun i => i⟩⟩],
           server := some [⟨EPOLLIN, 5, ⟨[], SendOutcome.fail, 7, 0, fun _ => 0⟩,
                            ⟨[], SendOutcome.fail, -1, 0, fun _ => 0⟩⟩] }]).1 idleTick
      = ((runTicks 2 { client := some (freshClient 2 3 4 loopbackIP),
                       server := some (freshServer 2 5 6) }
        [{ client := some [⟨EPOLLOUT, 3, ⟨[], SendOutcome.fail, -1, 0, fun _ => 0⟩,
                            ⟨[], SendOutcome.count 2, -1, 0, fun i => i⟩⟩],
           server := some [⟨EPOLLIN, 5, ⟨[], SendOutcome.fail, 7, 0, fun _ => 0⟩,
                            ⟨[], SendOutcome.fail, -1, 0, fun _ => 0⟩⟩] }]).1, []) :=
  ⟨by decide,
   idle_tick_is_noop 2 ⟨0, 0, 9, ⟨3, 0, 0, 0, 0, 4, 0⟩, ⟨5, 0, 0, 0, 0, 6, 0⟩⟩ 1 ["loopback"] _
     (by decide) _⟩

/-! ## Buffers -/

theorem writeAt_nil (buf : List Byte) (off : Nat) : writeAt buf off [] = buf := by
  simp [writeAt]

theorem writeAt_length (buf : List Byte) (off : Nat) (data : List Byte)
    (h : off + data.length ≤ buf.length) : (writeAt buf off data).length = buf.length := by
  simp only [writeAt, List.length_append, List.length_take, List.length_drop]
  omega

theorem writeAt_take (buf : List Byte) (off : Nat) (data : List Byte)
    (h : off + data.length ≤ buf.length) :
    (writeAt buf off data).take (off + data.length) = buf.take off ++ data := by
  unfold writeAt
  apply List.take_left'
  simp only [List.length_append, List.length_take]
  omega

theorem slice_cast (buf : List Byte) (w r : Nat) :
    slice buf (w : Int) (r : Int) = (buf.drop w).take (r - w) := by
  unfold slice
  congr 1
  omega

theorem slice_writeAt (buf : List Byte) (w r : Nat) (data : List Byte) (hwr : w ≤ r)
    (h : r + data.length ≤ buf.length) :
    ((writeAt buf r data).drop w).take (r + data.length - w)
      = (buf.drop w).take (r - w) ++ data := by
  rw [List.take_drop]
  have e : w + (r + data.length - w) = r + data.length := by omega
  rw [e, writeAt_take buf r data h]
  rw [List.drop_append_of_le_length (by simp only [List.length_take]; omega)]
  rw [List.drop_take]

theorem slice_split (buf : List Byte) (w r k : Nat) :
    (buf.drop w).take (r - w)
      = ((buf.drop w).take (r - w)).take k ++ (buf.drop (w + k)).take (r - (w + k)) := by
  conv_lhs => rw [← List.take_append_drop k ((buf.drop w).take (r - w))]
  rw [List.drop_take, List.drop_drop]
  congr 2
  omega

theorem recvBytes_append (a b : List Call) : recvBytes (a ++ b) = recvBytes a ++ recvBytes b := by
  induction a with
  | nil => rfl
  | cons c rest ih => cases c <;> simp [recvBytes, ih]

theorem sentBytes_append (a b : List Call) : sentBytes (a ++ b) = sentBytes a ++ sentBytes b := by
  induction a with
  | nil => rfl
  | cons c rest ih => cases c <;> simp [sentBytes, ih]

theorem echoStep_refl (es : EchoServer) : echoStep es [] es := by
  simp [echoStep, recvBytes, sentBytes]

theorem echoStep_trans (a b c : EchoServer) (t1 t2 : List Call)
    (h1 : echoStep a t1 b) (h2 : echoStep b t2 c) : echoStep a (t1 ++ t2) c := by
  unfold echoStep at *
  rw [recvBytes_append, sentBytes_append, ← List.append_assoc, h1, List.append_assoc, h2,
    List.append_assoc]

/-! ## Server: what one handler call does -/

/-- A call of the readable handler either leaves the server state alone and
receives no byte, or stores a non-empty run of received bytes at
`read_offset` and advances `read_offset` by its length. -/
theorem serverReadable_cases (BUFFERSIZE : Nat) (es : EchoServer) (socketd : Int) (env : Env) :
    ((_echotcp_serverReadable BUFFERSIZE es socketd env).1 = es ∧
      recvBytes (_echotcp_serverReadable BUFFERSIZE es socketd env).2 = [] ∧
      sentBytes (_echotcp_serverReadable BUFFERSIZE es socketd env).2 = []) ∨
    (∃ data : List Byte, data ≠ [] ∧
      (data.length : Int) ≤ (BUFFERSIZE : Int) - es.read_offset ∧
      (_echotcp_serverReadable BUFFERSIZE es socketd env).1 =
        { es with echoBuffer := writeAt es.echoBuffer es.read_offset.toNat data,
                  read_offset := es.read_offset + (data.length : Int) } ∧
      recvBytes (_echotcp_serverReadable BUFFERSIZE es socketd env).2 = data ∧
      sentBytes (_echotcp_serverReadable BUFFERSIZE es socketd env).2 = []) := by
  have hrng := recvCall_range ((BUFFERSIZE : Int) - es.read_offset).toNat (env.recvs.headD .fail)
  unfold _echotcp_serverReadable
  dsimp only
  generalize recvCall ((BUFFERSIZE : Int) - es.read_offset).toNat (env.recvs.headD .fail) = r
    at hrng ⊢
  obtain ⟨ret, data⟩ := r
  simp only at hrng ⊢
  by_cases hl : socketd = es.listend
  · left
    rw [if_pos hl]
    split_ifs <;> simp [recvBytes, sentBytes]
  · rw [if_neg hl]
    by_cases hsz : (BUFFERSIZE : Int) - es.read_offset > 0
    · rw [if_pos hsz]
      by_cases hz : ret = 0
      · left
        have hd : data = [] := by
          rcases hrng with ⟨h1, _⟩ | ⟨h1, _⟩
          · omega
          · exact List.length_eq_zero.mp (by omega)
        subst hd
        rw [if_pos hz]
        simp [recvBytes, sentBytes, writeAt_nil]
      · rw [if_neg hz]
        by_cases hp : ret > 0
        · right
          rw [if_pos hp]
          have hlen : ret = (data.length : Int) ∧
              data.length ≤ ((BUFFERSIZE : Int) - es.read_offset).toNat := by
            rcases hrng with ⟨h1, _⟩ | h1
            · omega
            · exact h1
          refine ⟨data, ?_, by omega, ?_, ?_, ?_⟩
          · intro hd
            rw [hd] at hlen
            simp at hlen
            omega
          · simp only [hlen.1]
          · split_ifs <;> simp [recvBytes]
          · split_ifs <;> simp [sentBytes]
        · left
          rw [if_neg hp]
          have hd : data = [] := by
            rcases hrng with ⟨_, h2⟩ | ⟨h1, _⟩
            · exact h2
            · omega
          subst hd
          simp [recvBytes, sentBytes, writeAt_nil]
    · left
      rw [if_neg hsz]
      simp [recvBytes, sentBytes]

/-- A call of the writable handler either leaves the server state alone and
sends no byte, or sends a non-empty run of bytes from the head of the pending
bytes and advances `write_offset` by its length. -/
theorem serverWritable_cases (es : EchoServer) (socketd : Int) (env : Env) :
    ((_echotcp_serverWritable es socketd env).1 = es ∧
      recvBytes (_echotcp_serverWritable es socketd env).2 = [] ∧
      sentBytes (_echotcp_serverWritable es socketd env).2 = []) ∨
    (∃ k : Nat, 0 < k ∧ (k : Int) ≤ es.read_offset - es.write_offset ∧
      (_echotcp_serverWritable es socketd env).1 =
        { es with write_offset := es.write_offset + (k : Int) } ∧
      recvBytes (_echotcp_serverWritable es socketd env).2 = [] ∧
      sentBytes (_echotcp_serverWritable es socketd env).2 = (pending es).take k) := by
  have hrng := sendCall_range (es.read_offset - es.write_offset).toNat env.send
  unfold _echotcp_serverWritable
  dsimp only
  generalize sendCall (es.read_offset - es.write_offset).toNat env.send = b at hrng ⊢
  by_cases hw : es.read_offset - es.write_offset > 0
  · rw [if_pos hw]
    by_cases hz : b = 0
    · left
      rw [if_pos hz]
      dsimp only
      rw [if_neg (by omega)]
      subst hz
      split_ifs <;> simp [recvBytes, sentBytes]
    · rw [if_neg hz]
      by_cases hp : b > 0
      · right
        rw [if_pos hp]
        dsimp only
        refine ⟨b.toNat, by omega, by omega, ?_, ?_, ?_⟩
        · have e : ((b.toNat : Nat) : Int) = b := by omega
          rw [e]
          split_ifs <;> rfl
        · split_ifs <;> simp [recvBytes]
        · split_ifs <;> simp [sentBytes, hp, pending]
      · left
        rw [if_neg hp]
        dsimp only
        rw [if_neg (by omega)]
        have hb : ¬ b > 0 := hp
        simp [recvBytes, sentBytes, hb]
  · left
    rw [if_neg hw]
    dsimp only
    split_ifs <;> simp [recvBytes, sentBytes]

/-! ## Server: echo fidelity -/

theorem serverReadable_echo (BUFFERSIZE : Nat) (es : EchoServer) (socketd : Int) (env : Env)
    (h : serverWf BUFFERSIZE es) :
    serverWf BUFFERSIZE (_echotcp_serverReadable BUFFERSIZE es socketd env).1 ∧
    echoStep es (_echotcp_serverReadable BUFFERSIZE es socketd env).2
      (_echotcp_serverReadable BUFFERSIZE es socketd env).1 := by
  have hinv := serverReadable_inv BUFFERSIZE es socketd env h.1
  obtain ⟨⟨h0, h1, h2⟩, hlen⟩ := h
  rcases serverReadable_cases BUFFERSIZE es socketd env with ⟨e1, e2, e3⟩ | ⟨data, _, hd, e1, e2, e3⟩
  · refine ⟨⟨hinv, ?_⟩, ?_⟩
    · rw [e1]; exact hlen
    · unfold echoStep
      rw [e1, e2, e3]
      simp
  · refine ⟨⟨hinv, ?_⟩, ?_⟩
    · rw [e1]
      dsimp only
      rw [writeAt_length _ _ _ (by omega)]
      exact hlen
    · unfold echoStep
      rw [e1, e2, e3]
      obtain ⟨ep, ls, buf, ro, wo⟩ := es
      simp only at h0 h1 h2 hlen hd ⊢
      lift wo to ℕ using h0
      lift ro to ℕ using (by omega)
      have e : (ro : Int) + (data.length : Int) = ((ro + data.length : Nat) : Int) := by
        push_cast; rfl
      simp only [pending, List.nil_append, Int.toNat_ofNat, e]
      rw [slice_cast, slice_cast]
      exact (slice_writeAt buf wo ro data (by omega) (by omega)).symm

theorem serverWritable_echo (BUFFERSIZE : Nat) (es : EchoServer) (socketd : Int) (env : Env)
    (h : serverWf BUFFERSIZE es) :
    serverWf BUFFERSIZE (_echotcp_serverWritable es socketd env).1 ∧
    echoStep es (_echotcp_serverWritable es socketd env).2
      (_echotcp_serverWritable es socketd env).1 := by
  have hinv := serverWritable_inv BUFFERSIZE es socketd env h.1
  obtain ⟨⟨h0, h1, h2⟩, hlen⟩ := h
  rcases serverWritable_cases es socketd env with ⟨e1, e2, e3⟩ | ⟨k, _, hk, e1, e2, e3⟩
  · refine ⟨⟨hinv, ?_⟩, ?_⟩
    · rw [e1]; exact hlen
    · unfold echoStep
      rw [e1, e2, e3]
      simp
  · refine ⟨⟨hinv, ?_⟩, ?_⟩
    · rw [e1]; exact hlen
    · unfold echoStep
      rw [e1, e2, e3]
      obtain ⟨ep, ls, buf, ro, wo⟩ := es
      simp only at h0 h1 h2 hlen hk ⊢
      lift wo to ℕ using h0
      lift ro to ℕ using (by omega)
      have e : (wo : Int) + (k : Int) = ((wo + k : Nat) : Int) := by push_cast; rfl
      simp only [pending, List.append_nil, e]
      rw [slice_cast, slice_cast]
      exact slice_split buf wo ro k

theorem serverReset_echo (BUFFERSIZE : Nat) (es : EchoServer) (h : serverWf BUFFERSIZE es) :
    serverWf BUFFERSIZE (serverReset es) ∧ pending (serverReset es) = pending es := by
  have hinv := serverReset_inv BUFFERSIZE es h.1
  unfold serverReset at hinv ⊢
  split_ifs with he
  · rw [if_pos he] at hinv
    refine ⟨⟨hinv, h.2⟩, ?_⟩
    simp [pending, slice, he]
  · exact ⟨h, rfl⟩

theorem serverEvent_echo (BUFFERSIZE : Nat) (es : EchoServer) (ev : EpollEvent)
    (h : serverWf BUFFERSIZE es) :
    serverWf BUFFERSIZE (serverEvent BUFFERSIZE es ev).1 ∧
    echoStep es (serverEvent BUFFERSIZE es ev).2 (serverEvent BUFFERSIZE es ev).1 := by
  obtain ⟨r1, r2⟩ := serverReadable_echo BUFFERSIZE es ev.fd ev.rd h
  by_cases hin : ev.events &&& EPOLLIN ≠ 0 <;> by_cases hout : ev.events &&& EPOLLOUT ≠ 0
  · obtain ⟨w1, w2⟩ := serverWritable_echo BUFFERSIZE _ ev.fd ev.wr r1
    simp only [serverEvent, if_pos hin, if_pos hout]
    exact ⟨w1, echoStep_trans _ _ _ _ _ r2 w2⟩
  · simp only [serverEvent, if_pos hin, if_neg hout, List.append_nil]
    exact ⟨r1, r2⟩
  · obtain ⟨w1, w2⟩ := serverWritable_echo BUFFERSIZE es ev.fd ev.wr h
    simp only [serverEvent, if_neg hin, if_pos hout, List.nil_append]
    exact ⟨w1, w2⟩
  · simp only [serverEvent, if_neg hin, if_neg hout, List.append_nil]
    exact ⟨h, echoStep_refl es⟩

theorem serverEvents_echo (BUFFERSIZE : Nat) (evs : List EpollEvent) :
    ∀ es : EchoServer, serverWf BUFFERSIZE es →
      serverWf BUFFERSIZE (serverEvents BUFFERSIZE es evs).1 ∧
      echoStep es (serverEvents BUFFERSIZE es evs).2 (serverEvents BUFFERSIZE es evs).1 := by
  induction evs with
  | nil => intro es h; exact ⟨h, echoStep_refl es⟩
  | cons ev rest ih =>
    intro es h
    obtain ⟨r1, r2⟩ := serverEvent_echo BUFFERSIZE es ev h
    obtain ⟨i1, i2⟩ := ih _ r1
    unfold serverEvents
    exact ⟨i1, echoStep_trans _ _ _ _ _ r2 i2⟩

theorem readyServer_echo (BUFFERSIZE : Nat) (es : EchoServer) (poll : Option (List EpollEvent))
    (h : serverWf BUFFERSIZE es) :
    serverWf BUFFERSIZE (readyServer BUFFERSIZE es poll).1 ∧
    echoStep es (readyServer BUFFERSIZE es poll).2 (readyServer BUFFERSIZE es poll).1 := by
  cases poll with
  | none =>
    obtain ⟨r1, r2⟩ := serverReset_echo BUFFERSIZE es h
    refine ⟨r1, ?_⟩
    simp only [readyServer, echoStep, recvBytes, sentBytes, r2, List.append_nil, List.nil_append]
  | some evs =>
    obtain ⟨e1, e2⟩ := serverEvents_echo BUFFERSIZE evs es h
    obtain ⟨r1, r2⟩ := serverReset_echo BUFFERSIZE _ e1
    refine ⟨r1, ?_⟩
    simp only [readyServer, echoStep, r2]
    exact e2

theorem runServer_echo (BUFFERSIZE : Nat) (polls : List (Option (List EpollEvent))) :
    ∀ es : EchoServer, serverWf BUFFERSIZE es →
      serverWf BUFFERSIZE (runServer BUFFERSIZE es polls).1 ∧
      echoStep es (runServer BUFFERSIZE es polls).2 (runServer BUFFERSIZE es polls).1 := by
  induction polls with
  | nil => intro es h; exact ⟨h, echoStep_refl es⟩
  | cons poll rest ih =>
    intro es h
    obtain ⟨r1, r2⟩ := readyServer_echo BUFFERSIZE es poll h
    obtain ⟨i1, i2⟩ := ih _ r1
    unfold runServer
    exact ⟨i1, echoStep_trans _ _ _ _ _ r2 i2⟩

/-- C1. From a freshly constructed server, after any sequence of ticks with
any readable and writable events and any call results (`recv` and `send`
return `-1` or a count within the requested length), the bytes taken by the
successful `send` calls, in order, are a prefix of the bytes delivered by the
`recv` calls, in order, and what remains of the received bytes is exactly
`echoBuffer[write_offset .. read_offset)`.  With one accepted peer every
`recv` and `send` is on that peer. -/
theorem server_echo_fidelity (BUFFERSIZE : Nat) (socketd epolld : Int)
    (polls : List (Option (List EpollEvent))) :
    sentBytes (runServer BUFFERSIZE (freshServer BUFFERSIZE socketd epolld) polls).2
      <+: recvBytes (runServer BUFFERSIZE (freshServer BUFFERSIZE socketd epolld) polls).2 ∧
    recvBytes (runServer BUFFERSIZE (freshServer BUFFERSIZE socketd epolld) polls).2
      = sentBytes (runServer BUFFERSIZE (freshServer BUFFERSIZE socketd epolld) polls).2
        ++ slice (runServer BUFFERSIZE (freshServer BUFFERSIZE socketd epolld) polls).1.echoBuffer
            (runServer BUFFERSIZE (freshServer BUFFERSIZE socketd epolld) polls).1.write_offset
            (runServer BUFFERSIZE (freshServer BUFFERSIZE socketd epolld) polls).1.read_offset := by
  have hwf : serverWf BUFFERSIZE (freshServer BUFFERSIZE socketd epolld) :=
    ⟨freshServer_inv BUFFERSIZE socketd epolld, by simp [freshServer]⟩
  obtain ⟨_, h⟩ := runServer_echo BUFFERSIZE polls _ hwf
  have h0 : pending (freshServer BUFFERSIZE socketd epolld) = [] := by
    simp [pending, slice, freshServer]
  unfold echoStep at h
  rw [h0, List.nil_append] at h
  exact ⟨⟨_, h.symm⟩, h⟩

/-! ## Client: reassembly of the echo -/

theorem messages_append (a b : List Call) : messages (a ++ b) = messages a ++ messages b := by
  induction a with
  | nil => rfl
  | cons c rest ih =>
    cases c with
    | log level msg => cases level <;> simp [messages, ih]
    | _ => simp [messages, ih]

theorem memcmp_eq_zero_iff :
    ∀ (a b : List Byte) (n : Nat), n ≤ a.length → n ≤ b.length →
      (memcmp a b n = 0 ↔ a.take n = b.take n) := by
  intro a
  induction a with
  | nil =>
    intro b n ha _
    have hn : n = 0 := by simpa using ha
    subst hn
    simp [memcmp]
  | cons x xs ih =>
    intro b n ha hb
    cases b with
    | nil =>
      have hn : n = 0 := by simpa using hb
      subst hn
      simp [memcmp]
    | cons y ys =>
      cases n with
      | zero => simp [memcmp]
      | succ n =>
        simp only [memcmp, List.take_succ_cons, List.cons.injEq]
        by_cases hxy : x = y
        · simp only [hxy, if_true, true_and]
          exact ih ys n (by simpa using ha) (by simpa using hb)
        · simp only [hxy, if_false, false_and, iff_false]
          intro h
          apply hxy
          apply Fin.ext
          omega

theorem toSizeT_of_nonneg (i : Int) (h0 : 0 ≤ i) (h1 : i < 2 ^ 64) : toSizeT i = i.toNat := by
  unfold toSizeT
  rw [Int.emod_eq_of_lt h0 h1]

theorem fill_length (f : Nat → Byte) (l : List Nat) :
    ∀ buf : List Byte, (l.foldl (fun b i => b.set i (f i)) buf).length = buf.length := by
  induction l with
  | nil => intro buf; rfl
  | cons i rest ih => intro buf; simp only [List.foldl_cons]; rw [ih]; simp

theorem fillCharBuffer_length (rand : Nat → Nat) (buffer : List Byte) (size : Nat) :
    (_echotcp_fillCharBuffer rand buffer size).length = buffer.length := by
  unfold _echotcp_fillCharBuffer
  exact fill_length (fun i => Fin.ofNat (97 + rand i % 26)) (List.range size) buffer

/-- The receive loop issues no log at message level. -/
theorem clientRecvLoop_messages (socketd : Int) (script : List RecvOutcome) :
    ∀ ec : EchoClient, messages (clientRecvLoop socketd ec script).2 = [] := by
  induction script with
  | nil =>
    intro ec
    unfold clientRecvLoop
    split_ifs <;> simp [messages]
  | cons o rest ih =>
    intro ec
    unfold clientRecvLoop
    dsimp only
    split_ifs
    · simp only [messages]
      exact ih _
    · simp [messages]
    · simp [messages]

/-- The receive loop keeps the length of `recvBuffer`, never moves
`recv_offset` backwards and never past a non-negative `amount_sent`. -/
theorem clientRecvLoop_wf (BUFFERSIZE : Nat) (socketd : Int) (script : List RecvOutcome) :
    ∀ ec : EchoClient, ec.recvBuffer.length = BUFFERSIZE → 0 ≤ ec.recv_offset →
      ec.amount_sent ≤ (BUFFERSIZE : Int) →
      (clientRecvLoop socketd ec script).1.recvBuffer.length = BUFFERSIZE ∧
      ec.recv_offset ≤ (clientRecvLoop socketd ec script).1.recv_offset ∧
      (ec.recv_offset ≤ ec.amount_sent →
        (clientRecvLoop socketd ec script).1.recv_offset ≤ ec.amount_sent) := by
  induction script with
  | nil =>
    intro ec hl h0 _
    unfold clientRecvLoop
    split_ifs <;> exact ⟨hl, le_refl _, fun h => h⟩
  | cons o rest ih =>
    intro ec hl h0 ha
    have hrng := recvCall_range (ec.amount_sent - ec.recv_offset).toNat o
    unfold clientRecvLoop
    dsimp only
    generalize recvCall (ec.amount_sent - ec.recv_offset).toNat o = r at hrng ⊢
    obtain ⟨ret, data⟩ := r
    simp only at hrng ⊢
    by_cases hgt : ec.amount_sent - ec.recv_offset > 0
    · rw [if_pos hgt]
      have hdl : ec.recv_offset.toNat + data.length ≤ ec.recvBuffer.length := by
        rcases hrng with ⟨_, h2⟩ | ⟨_, h2⟩
        · subst h2; simp only [List.length_nil]; omega
        · omega
      by_cases hp : ret > 0
      · rw [if_pos hp]
        have hret : ret = (data.length : Int) ∧
            data.length ≤ (ec.amount_sent - ec.recv_offset).toNat := by
          rcases hrng with ⟨h1, _⟩ | h1
          · omega
          · exact h1
        obtain ⟨i1, i2, i3⟩ := ih
          { ec with recvBuffer := writeAt ec.recvBuffer ec.recv_offset.toNat data,
                    recv_offset := ec.recv_offset + ret }
          (by simp only; rw [writeAt_length _ _ _ hdl]; exact hl)
          (by simp only; omega) ha
        simp only at i1 i2 i3
        dsimp only
        refine ⟨i1, by omega, fun _ => i3 (by omega)⟩
      · rw [if_neg hp]
        refine ⟨?_, le_refl _, fun h => h⟩
        simp only
        rw [writeAt_length _ _ _ hdl]
        exact hl
    · rw [if_neg hgt]
      exact ⟨hl, le_refl _, fun h => h⟩

theorem freshClient_wf (BUFFERSIZE : Nat) (socketd epolld : Int) (serverIP : Nat) :
    clientWf BUFFERSIZE (freshClient BUFFERSIZE socketd epolld serverIP) := by
  simp [clientWf, freshClient]

theorem clientReadable_wf (BUFFERSIZE : Nat) (ec : EchoClient) (socketd : Int) (env : Env)
    (h : clientWf BUFFERSIZE ec) :
    clientWf BUFFERSIZE (_echotcp_clientReadable ec socketd env).1 := by
  obtain ⟨h1, h2, h3, h4, h5⟩ := h
  obtain ⟨f1, f2, f3, _, _⟩ := clientRecvLoop_frame socketd env.recvs ec
  obtain ⟨l1, l2, _⟩ := clientRecvLoop_wf BUFFERSIZE socketd env.recvs ec h2 h3 h4
  unfold _echotcp_clientReadable clientWf
  dsimp only
  split_ifs <;> dsimp only
  · exact ⟨by rw [f1]; exact h1, l1, by omega, by rw [f2]; exact h4, by rw [f2, f3]; exact h5⟩
  · exact ⟨by rw [f1]; exact h1, l1, by omega, by rw [f2]; exact h4, by rw [f2, f3]; exact h5⟩
  · exact ⟨by rw [f1]; exact h1, l1, by omega, by rw [f2]; exact h4, by rw [f2, f3]; exact h5⟩
  · exact ⟨h1, h2, h3, h4, h5⟩

theorem clientWritable_wf (BUFFERSIZE : Nat) (ec : EchoClient) (socketd : Int) (env : Env)
    (h : clientWf BUFFERSIZE ec) :
    clientWf BUFFERSIZE (_echotcp_clientWritable BUFFERSIZE ec socketd env).1 := by
  obtain ⟨h1, h2, h3, h4, h5⟩ := h
  have hrng := sendCall_range BUFFERSIZE env.send
  by_cases hs : ec.sent_msg = 0
  · have ha := h5 hs
    simp only [_echotcp_clientWritable, hs, if_true]
    split_ifs <;>
      exact ⟨by simp only [fillCharBuffer_length]; exact h1, h2, h3, by simp only; omega,
        by simp⟩
  · rw [clientWritable_sent BUFFERSIZE ec socketd env hs]
    exact ⟨h1, h2, h3, h4, h5⟩

theorem clientEvent_wf (BUFFERSIZE : Nat) (ec : EchoClient) (ev : EpollEvent)
    (h : clientWf BUFFERSIZE ec) : clientWf BUFFERSIZE (clientEvent BUFFERSIZE ec ev).1 := by
  have r := clientReadable_wf BUFFERSIZE ec ev.fd ev.rd h
  by_cases hin : ev.events &&& EPOLLIN ≠ 0 <;> by_cases hout : ev.events &&& EPOLLOUT ≠ 0
  · simp only [clientEvent, if_pos hin, if_pos hout]
    exact clientWritable_wf BUFFERSIZE _ ev.fd ev.wr r
  · simp only [clientEvent, if_pos hin, if_neg hout]
    exact r
  · simp only [clientEvent, if_neg hin, if_pos hout]
    exact clientWritable_wf BUFFERSIZE _ ev.fd ev.wr h
  · simp only [clientEvent, if_neg hin, if_neg hout]
    exact h

theorem clientEvents_wf (BUFFERSIZE : Nat) (evs : List EpollEvent) :
    ∀ ec : EchoClient, clientWf BUFFERSIZE ec →
      clientWf BUFFERSIZE (clientEvents BUFFERSIZE ec evs).1 := by
  induction evs with
  | nil => intro ec h; exact h
  | cons ev rest ih =>
    intro ec h
    unfold clientEvents
    exact ih _ (clientEvent_wf BUFFERSIZE ec ev h)

theorem runClient_wf (BUFFERSIZE : Nat) (polls : List (Option (List EpollEvent))) :
    ∀ ec : EchoClient, clientWf BUFFERSIZE ec →
      clientWf BUFFERSIZE (runClient BUFFERSIZE ec polls).1 := by
  induction polls with
  | nil => intro ec h; exact h
  | cons poll rest ih =>
    intro ec h
    unfold runClient
    apply ih
    cases poll with
    | none => exact h
    | some evs => exact clientEvents_wf BUFFERSIZE evs ec h

/-- When a readable event completes a client whose `amount_sent` is not
negative, the one message logged is the verdict, and it is the consistent one
exactly when the first `amount_sent` bytes of the two buffers are equal. -/
theorem clientReadable_verdict (BUFFERSIZE : Nat) (ec : EchoClient) (socketd : Int) (env : Env)
    (hB : BUFFERSIZE < 2 ^ 31) (hwf : clientWf BUFFERSIZE ec) (hd : ec.is_done = 0)
    (ha : 0 ≤ ec.amount_sent) (hdone : (_echotcp_clientReadable ec socketd env).1.is_done ≠ 0) :
    messages (_echotcp_clientReadable ec socketd env).2 =
      [if (_echotcp_clientReadable ec socketd env).1.sendBuffer.take
            (_echotcp_clientReadable ec socketd env).1.amount_sent.toNat
          = (_echotcp_clientReadable ec socketd env).1.recvBuffer.take
            (_echotcp_clientReadable ec socketd env).1.amount_sent.toNat
       then "consistent echo received!" else "inconsistent echo received!"] := by
  obtain ⟨h1, h2, h3, h4, _⟩ := hwf
  obtain ⟨f1, f2, _, f4, _⟩ := clientRecvLoop_frame socketd env.recvs ec
  obtain ⟨l1, _, _⟩ := clientRecvLoop_wf BUFFERSIZE socketd env.recvs ec h2 h3 h4
  have hm := clientRecvLoop_messages socketd env.recvs ec
  unfold _echotcp_clientReadable at hdone ⊢
  dsimp only at hdone ⊢
  rw [if_pos hd] at hdone ⊢
  by_cases hge : (clientRecvLoop socketd ec env.recvs).1.recv_offset ≥
      (clientRecvLoop socketd ec env.recvs).1.amount_sent
  · rw [if_pos hge]
    dsimp only
    have hsz : toSizeT (clientRecvLoop socketd ec env.recvs).1.amount_sent
        = (clientRecvLoop socketd ec env.recvs).1.amount_sent.toNat := by
      apply toSizeT_of_nonneg
      · rw [f2]; exact ha
      · rw [f2]
        have : (BUFFERSIZE : Int) < 2 ^ 31 := by exact_mod_cast hB
        omega
    have hiff := memcmp_eq_zero_iff (clientRecvLoop socketd ec env.recvs).1.sendBuffer
      (clientRecvLoop socketd ec env.recvs).1.recvBuffer
      (clientRecvLoop socketd ec env.recvs).1.amount_sent.toNat
      (by rw [f1, f2, h1]; omega) (by rw [l1, f2]; omega)
    rw [hsz]
    have hcons : messages (Call.log LogLevel.debug "trying to read socket %i" ::
        (clientRecvLoop socketd ec env.recvs).2) = [] := by
      simp only [messages]; exact hm
    rw [messages_append, hcons, List.nil_append]
    by_cases heq : (clientRecvLoop socketd ec env.recvs).1.sendBuffer.take
        (clientRecvLoop socketd ec env.recvs).1.amount_sent.toNat
        = (clientRecvLoop socketd ec env.recvs).1.recvBuffer.take
        (clientRecvLoop socketd ec env.recvs).1.amount_sent.toNat
    · rw [if_pos heq, if_neg (by rw [ne_eq, not_not]; exact hiff.mpr heq)]
      rfl
    · rw [if_neg heq, if_pos (fun h => heq (hiff.mp h))]
      rfl
  · rw [if_neg hge] at hdone
    exact absurd (f4.trans hd) hdone

/-- One drain of the receive loop: the chunks, which continue the expected
bytes `T` from offset `k`, are stored one after the other, and `recv_offset`
advances by their total length. -/
theorem clientRecvLoop_chunks (socketd : Int) (T : List Byte) (term : RecvOutcome)
    (hterm : term = RecvOutcome.fail ∨ term = RecvOutcome.data []) (chunks : List (List Byte)) :
    ∀ (ec : EchoClient) (k : Nat) (tail : List Byte),
      ec.amount_sent = (T.length : Int) → ec.recv_offset = (k : Int) →
      T.length ≤ ec.recvBuffer.length →
      (∀ ch ∈ chunks, ch ≠ []) →
      T.drop k = chunks.flatten ++ tail →
      ec.recvBuffer.take k = T.take k →
      (clientRecvLoop socketd ec (chunks.map RecvOutcome.data ++ [term])).1.recv_offset
        = ((k + chunks.flatten.length : Nat) : Int) ∧
      (clientRecvLoop socketd ec (chunks.map RecvOutcome.data ++ [term])).1.recvBuffer.length
        = ec.recvBuffer.length ∧
      (clientRecvLoop socketd ec (chunks.map RecvOutcome.data ++ [term])).1.recvBuffer.take
        (k + chunks.flatten.length) = T.take (k + chunks.flatten.length) := by
  induction chunks with
  | nil =>
    intro ec k tail _ hk _ _ _ htake
    have hr : (recvCall (ec.amount_sent - ec.recv_offset).toNat term).1 ≤ 0 ∧
        (recvCall (ec.amount_sent - ec.recv_offset).toNat term).2 = [] := by
      rcases hterm with h | h <;> subst h <;> simp [recvCall]
    simp only [List.map_nil, List.nil_append, List.flatten_nil, List.length_nil, Nat.add_zero]
    rw [clientRecvLoop]
    dsimp only
    split_ifs with h1 h2
    · omega
    · dsimp only
      rw [hr.2, writeAt_nil]
      exact ⟨hk, rfl, htake⟩
    · exact ⟨hk, rfl, htake⟩
  | cons ch rest ih =>
    intro ec k tail ha hk hlen hne hdrop htake
    have hch : ch ≠ [] := hne ch (by simp)
    have hchl : 0 < ch.length := List.length_pos.mpr hch
    simp only [List.flatten_cons, List.append_assoc] at hdrop
    have hdl : T.length - k = ch.length + (rest.flatten ++ tail).length := by
      have := congrArg List.length hdrop
      simpa using this
    have hgt : ec.amount_sent - ec.recv_offset > 0 := by omega
    have hlenr : (ec.amount_sent - ec.recv_offset).toNat = T.length - k := by omega
    have hrc : recvCall (ec.amount_sent - ec.recv_offset).toNat (RecvOutcome.data ch)
        = ((ch.length : Int), ch) := recvCall_data _ _ (by omega)
    have hoff : ec.recv_offset.toNat = k := by omega
    simp only [List.map_cons, List.cons_append, List.flatten_cons, List.length_append]
    rw [clientRecvLoop]
    dsimp only
    rw [if_pos hgt, hrc]
    dsimp only
    rw [if_pos (by omega), hoff]
    have hw := writeAt_length ec.recvBuffer k ch (by omega)
    obtain ⟨i1, i2, i3⟩ := ih
      { ec with recvBuffer := writeAt ec.recvBuffer k ch,
                recv_offset := ec.recv_offset + (ch.length : Int) }
      (k + ch.length) tail ha (by simp only; omega) (by simp only; omega)
      (fun c hc => hne c (by simp [hc]))
      (by
        have := congrArg (List.drop ch.length) hdrop
        rw [List.drop_drop, List.drop_left] at this
        exact this)
      (by
        simp only
        rw [writeAt_take _ _ _ (by omega), htake, List.take_add, hdrop, List.take_left])
    dsimp only
    simp only at i2
    refine ⟨?_, ?_, ?_⟩
    · rw [i1]; push_cast; omega
    · rw [i2, hw]
    · rw [← Nat.add_assoc]; exact i3

/-- One readable event that delivers the chunks of one drain to a client that
is not done: the chunks are appended to what was received, and the client is
done, with the consistent verdict, exactly when nothing remains to come. -/
theorem clientReadable_drain (socketd : Int) (T : List Byte) (hT : T.length < 2 ^ 31)
    (ec : EchoClient) (env : Env) (d : List (List Byte) × RecvOutcome) (k : Nat)
    (tail : List Byte) (henv : env.recvs = drainScript d)
    (hterm : d.2 = RecvOutcome.fail ∨ d.2 = RecvOutcome.data [])
    (hne : ∀ ch ∈ d.1, ch ≠ [])
    (hd : ec.is_done = 0) (ha : ec.amount_sent = (T.length : Int))
    (hk : ec.recv_offset = (k : Int)) (hkT : k ≤ T.length)
    (hrl : T.length ≤ ec.recvBuffer.length) (hsl : T.length ≤ ec.sendBuffer.length)
    (hsend : ec.sendBuffer.take T.length = T)
    (hdrop : T.drop k = d.1.flatten ++ tail)
    (htake : ec.recvBuffer.take k = T.take k) :
    (_echotcp_clientReadable ec socketd env).1.sendBuffer = ec.sendBuffer ∧
    (_echotcp_clientReadable ec socketd env).1.amount_sent = (T.length : Int) ∧
    (_echotcp_clientReadable ec socketd env).1.recv_offset = ((k + d.1.flatten.length : Nat) : Int) ∧
    (_echotcp_clientReadable ec socketd env).1.recvBuffer.length = ec.recvBuffer.length ∧
    (_echotcp_clientReadable ec socketd env).1.recvBuffer.take (k + d.1.flatten.length)
      = T.take (k + d.1.flatten.length) ∧
    (tail ≠ [] → (_echotcp_clientReadable ec socketd env).1.is_done = 0 ∧
      messages (_echotcp_clientReadable ec socketd env).2 = []) ∧
    (tail = [] → (_echotcp_clientReadable ec socketd env).1.is_done = 1 ∧
      messages (_echotcp_clientReadable ec socketd env).2 = ["consistent echo received!"]) := by
  obtain ⟨c1, c2, c3⟩ := clientRecvLoop_chunks socketd T d.2 hterm d.1 ec k tail ha hk hrl hne
    hdrop htake
  obtain ⟨f1, f2, _, f4, _⟩ := clientRecvLoop_frame socketd env.recvs ec
  have hm := clientRecvLoop_messages socketd env.recvs ec
  have hcons : messages (Call.log LogLevel.debug "trying to read socket %i" ::
      (clientRecvLoop socketd ec env.recvs).2) = [] := by
    simp only [messages]; exact hm
  have hdl : T.length - k = d.1.flatten.length + tail.length := by
    have := congrArg List.length hdrop
    simpa using this
  rw [← drainScript, ← henv] at c1 c2 c3
  unfold _echotcp_clientReadable
  dsimp only
  rw [if_pos hd]
  by_cases hge : (clientRecvLoop socketd ec env.recvs).1.recv_offset ≥
      (clientRecvLoop socketd ec env.recvs).1.amount_sent
  · rw [if_pos hge]
    dsimp only
    have htl : tail = [] := by
      apply List.length_eq_zero.mp
      rw [c1, f2, ha] at hge
      omega
    have hkn : k + d.1.flatten.length = T.length := by
      rw [htl] at hdl
      simp only [List.length_nil] at hdl
      omega
    refine ⟨f1, f2.trans ha, c1, c2, c3, fun h => absurd htl h, fun _ => ⟨rfl, ?_⟩⟩
    rw [messages_append, hcons, List.nil_append]
    have hsz : toSizeT (clientRecvLoop socketd ec env.recvs).1.amount_sent = T.length := by
      rw [f2, ha, toSizeT_of_nonneg _ (by omega) (by omega)]
      simp
    have hz : memcmp (clientRecvLoop socketd ec env.recvs).1.sendBuffer
        (clientRecvLoop socketd ec env.recvs).1.recvBuffer T.length = 0 := by
      rw [memcmp_eq_zero_iff _ _ _ (by rw [f1]; exact hsl) (by rw [c2]; exact hrl)]
      rw [hkn] at c3
      rw [f1, hsend, c3, List.take_length]
    rw [hsz, if_neg (by rw [ne_eq, not_not]; exact hz)]
    rfl
  · rw [if_neg hge]
    have htl : tail ≠ [] := by
      intro h
      rw [h] at hdl
      simp only [List.length_nil] at hdl
      rw [c1, f2, ha] at hge
      omega
    refine ⟨f1, f2.trans ha, c1, c2, c3, fun _ => ⟨f4.trans hd, ?_⟩, fun h => absurd h htl⟩
    rw [messages_append, hcons, List.nil_append]
    rfl

theorem runClient_readablePoll (BUFFERSIZE : Nat) (ec : EchoClient) (fd : Int)
    (recvs : List RecvOutcome) (rest : List (Option (List EpollEvent))) :
    runClient BUFFERSIZE ec (readablePoll fd recvs :: rest) =
      ((runClient BUFFERSIZE
          (_echotcp_clientReadable ec fd
            { recvs := recvs, send := SendOutcome.fail, accept := -1, ctl := 0,
              rand := fun _ => 0 }).1 rest).1,
       (_echotcp_clientReadable ec fd
            { recvs := recvs, send := SendOutcome.fail, accept := -1, ctl := 0,
              rand := fun _ => 0 }).2 ++
        (runClient BUFFERSIZE
          (_echotcp_clientReadable ec fd
            { recvs := recvs, send := SendOutcome.fail, accept := -1, ctl := 0,
              rand := fun _ => 0 }).1 rest).2) := by
  have h1 : EPOLLIN &&& EPOLLIN ≠ 0 := by decide
  have h2 : ¬ (EPOLLIN &&& EPOLLOUT ≠ 0) := by decide
  simp only [runClient, readablePoll, readyClient, clientEvents, clientEvent, if_pos h1,
    if_neg h2, List.append_nil]

/-- Readable events on a client that is done change nothing and log no
message. -/
theorem runClient_drains_done (BUFFERSIZE : Nat) (socketd : Int)
    (drains : List (List (List Byte) × RecvOutcome)) :
    ∀ ec : EchoClient, ec.is_done ≠ 0 →
      (runClient BUFFERSIZE ec
        (drains.map (fun d => readablePoll socketd (drainScript d)))).1 = ec ∧
      messages (runClient BUFFERSIZE ec
        (drains.map (fun d => readablePoll socketd (drainScript d)))).2 = [] := by
  induction drains with
  | nil => intro ec _; exact ⟨rfl, rfl⟩
  | cons d ds ih =>
    intro ec hd
    have hr : ∀ env, _echotcp_clientReadable ec socketd env
        = (ec, [Call.log LogLevel.debug "trying to read socket %i"]) := by
      intro env
      simp only [_echotcp_clientReadable, hd, if_false]
    simp only [List.map_cons]
    rw [runClient_readablePoll, hr]
    obtain ⟨i1, i2⟩ := ih ec hd
    dsimp only
    refine ⟨i1, ?_⟩
    rw [messages_append, i2]
    rfl

/-- Readable events that deliver, drain by drain, the bytes of `T` still
outstanding complete the client with `T` in `recvBuffer` and the consistent
verdict as the only message. -/
theorem runClient_drains (BUFFERSIZE : Nat) (socketd : Int) (T : List Byte)
    (hT : T.length < 2 ^ 31) (drains : List (List (List Byte) × RecvOutcome)) :
    ∀ (ec : EchoClient) (k : Nat),
      ec.is_done = 0 → ec.amount_sent = (T.length : Int) → ec.recv_offset = (k : Int) →
      k < T.length → T.length ≤ ec.recvBuffer.length → T.length ≤ ec.sendBuffer.length →
      ec.sendBuffer.take T.length = T → ec.recvBuffer.take k = T.take k →
      (∀ d ∈ drains, ∀ ch ∈ d.1, ch ≠ []) →
      (∀ d ∈ drains, d.2 = RecvOutcome.fail ∨ d.2 = RecvOutcome.data []) →
      T.drop k = (drains.map (fun d => d.1.flatten)).flatten →
      (runClient BUFFERSIZE ec
        (drains.map (fun d => readablePoll socketd (drainScript d)))).1.is_done = 1 ∧
      (runClient BUFFERSIZE ec
        (drains.map (fun d => readablePoll socketd (drainScript d)))).1.recvBuffer.take T.length
        = T ∧
      (runClient BUFFERSIZE ec
        (drains.map (fun d => readablePoll socketd (drainScript d)))).1.sendBuffer
        = ec.sendBuffer ∧
      messages (runClient BUFFERSIZE ec
        (drains.map (fun d => readablePoll socketd (drainScript d)))).2
        = ["consistent echo received!"] := by
  induction drains with
  | nil =>
    intro ec k _ _ _ hk _ _ _ _ _ _ hdrop
    have := congrArg List.length hdrop
    simp at this
    omega
  | cons d ds ih =>
    intro ec k hd ha hko hk hrl hsl hsend htake hne hterm hdrop
    simp only [List.map_cons, List.flatten_cons] at hdrop
    obtain ⟨e1, e2, e3, e4, e5, e6, e7⟩ := clientReadable_drain socketd T hT ec
      { recvs := drainScript d, send := SendOutcome.fail, accept := -1, ctl := 0,
        rand := fun _ => 0 } d k
      ((ds.map (fun d => d.1.flatten)).flatten) rfl (hterm d (by simp))
      (hne d (by simp)) hd ha hko (by omega) hrl hsl hsend hdrop htake
    have hdl : T.length - k = d.1.flatten.length +
        ((ds.map (fun d => d.1.flatten)).flatten).length := by
      have := congrArg List.length hdrop
      simpa using this
    simp only [List.map_cons]
    rw [runClient_readablePoll]
    dsimp only
    by_cases htl : (ds.map (fun d => d.1.flatten)).flatten = []
    · obtain ⟨d1, d2⟩ := e7 htl
      obtain ⟨r1, r2⟩ := runClient_drains_done BUFFERSIZE socketd ds _
        (by rw [d1]; decide)
      have hkn : k + d.1.flatten.length = T.length := by
        rw [htl] at hdl
        simp only [List.length_nil] at hdl
        omega
      rw [hkn, List.take_length] at e5
      rw [r1, messages_append, r2, d2]
      exact ⟨d1, e5, e1, rfl⟩
    · obtain ⟨d1, d2⟩ := e6 htl
      have hpos : 0 < ((ds.map (fun d => d.1.flatten)).flatten).length :=
        List.length_pos.mpr htl
      obtain ⟨i1, i2, i3, i4⟩ := ih _ (k + d.1.flatten.length) d1 e2 e3 (by omega)
        (by rw [e4]; exact hrl) (by rw [e1]; exact hsl) (by rw [e1]; exact hsend) e5
        (fun d hd => hne d (by simp [hd])) (fun d hd => hterm d (by simp [hd]))
        (by
          have := congrArg (List.drop d.1.flatten.length) hdrop
          rw [List.drop_drop, List.drop_left] at this
          exact this)
      rw [messages_append, d2, List.nil_append]
      exact ⟨i1, i2, i3.trans e1, i4⟩

/-- Reassembly and verdict of the client where `amount_sent` is not negative.
First part: after a first send of `n` bytes, `0 < n <= BUFFERSIZE`, readable
events that deliver the first `n` bytes of `sendBuffer` split into non-empty
chunks, one chunk per `recv`, each drain ended by a `recv` result of `0` or
`-1`, leave the client with `is_done` set, `recvBuffer[0..n)` equal to
`sendBuffer[0..n)`, and the consistent verdict as the only message logged.
Second part: whenever a readable event completes a client reached from
construction whose `amount_sent` is not negative, the verdict logged is the
consistent one exactly when the first `amount_sent` bytes of the two buffers
are equal. -/
theorem client_reassembly_and_verdict (BUFFERSIZE n : Nat) (hB : BUFFERSIZE < 2 ^ 31)
    (hn : 0 < n) (hnB : n ≤ BUFFERSIZE) (socketd epolld : Int) (serverIP : Nat) (wenv : Env)
    (drains : List (List (List Byte) × RecvOutcome))
    (hne : ∀ d ∈ drains, ∀ ch ∈ d.1, ch ≠ [])
    (hterm : ∀ d ∈ drains, d.2 = RecvOutcome.fail ∨ d.2 = RecvOutcome.data [])
    (hsplit : (drains.map (fun d => d.1.flatten)).flatten =
      (_echotcp_clientWritable BUFFERSIZE (freshClient BUFFERSIZE socketd epolld serverIP) socketd
        { wenv with send := SendOutcome.count n }).1.sendBuffer.take n) :
    ((runClient BUFFERSIZE
        (_echotcp_clientWritable BUFFERSIZE (freshClient BUFFERSIZE socketd epolld serverIP)
          socketd { wenv with send := SendOutcome.count n }).1
        (drains.map (fun d => readablePoll socketd (drainScript d)))).1.is_done = 1 ∧
     (runClient BUFFERSIZE
        (_echotcp_clientWritable BUFFERSIZE (freshClient BUFFERSIZE socketd epolld serverIP)
          socketd { wenv with send := SendOutcome.count n }).1
        (drains.map (fun d => readablePoll socketd (drainScript d)))).1.recvBuffer.take n
      = (runClient BUFFERSIZE
        (_echotcp_clientWritable BUFFERSIZE (freshClient BUFFERSIZE socketd epolld serverIP)
          socketd { wenv with send := SendOutcome.count n }).1
        (drains.map (fun d => readablePoll socketd (drainScript d)))).1.sendBuffer.take n ∧
     messages (runClient BUFFERSIZE
        (_echotcp_clientWritable BUFFERSIZE (freshClient BUFFERSIZE socketd epolld serverIP)
          socketd { wenv with send := SendOutcome.count n }).1
        (drains.map (fun d => readablePoll socketd (drainScript d)))).2
      = ["consistent echo received!"]) ∧
    (∀ (polls : List (Option (List EpollEvent))) (fd : Int) (env : Env),
      (runClient BUFFERSIZE (freshClient BUFFERSIZE socketd epolld serverIP) polls).1.is_done = 0 →
      0 ≤ (runClient BUFFERSIZE (freshClient BUFFERSIZE socketd epolld serverIP)
            polls).1.amount_sent →
      (_echotcp_clientReadable
        (runClient BUFFERSIZE (freshClient BUFFERSIZE socketd epolld serverIP) polls).1
        fd env).1.is_done ≠ 0 →
      messages (_echotcp_clientReadable
        (runClient BUFFERSIZE (freshClient BUFFERSIZE socketd epolld serverIP) polls).1
        fd env).2 =
        [if (_echotcp_clientReadable
              (runClient BUFFERSIZE (freshClient BUFFERSIZE socketd epolld serverIP) polls).1
              fd env).1.sendBuffer.take
              (_echotcp_clientReadable
                (runClient BUFFERSIZE (freshClient BUFFERSIZE socketd epolld serverIP) polls).1
                fd env).1.amount_sent.toNat
            = (_echotcp_clientReadable
              (runClient BUFFERSIZE (freshClient BUFFERSIZE socketd epolld serverIP) polls).1
              fd env).1.recvBuffer.take
              (_echotcp_clientReadable
                (runClient BUFFERSIZE (freshClient BUFFERSIZE socketd epolld serverIP) polls).1
                fd env).1.amount_sent.toNat
         then "consistent echo received!" else "inconsistent echo received!"]) := by
  constructor
  · have hw : (_echotcp_clientWritable BUFFERSIZE
        (freshClient BUFFERSIZE socketd epolld serverIP) socketd
        { wenv with send := SendOutcome.count n }).1 =
        { freshClient BUFFERSIZE socketd epolld serverIP with
          sendBuffer := _echotcp_fillCharBuffer wenv.rand
            (freshClient BUFFERSIZE socketd epolld serverIP).sendBuffer (BUFFERSIZE - 1),
          sent_msg := 1, amount_sent := (n : Int) } := by
      have hs : sendCall BUFFERSIZE (SendOutcome.count n) = (n : Int) :=
        sendCall_count BUFFERSIZE n hnB
      simp only [_echotcp_clientWritable, freshClient, hs, if_true]
      split_ifs <;> simp
    rw [hw] at hsplit ⊢
    simp only at hsplit
    have hfl : (_echotcp_fillCharBuffer wenv.rand
        (freshClient BUFFERSIZE socketd epolld serverIP).sendBuffer (BUFFERSIZE - 1)).length
        = BUFFERSIZE := by
      rw [fillCharBuffer_length]; simp [freshClient]
    have hTl : ((_echotcp_fillCharBuffer wenv.rand
        (freshClient BUFFERSIZE socketd epolld serverIP).sendBuffer
        (BUFFERSIZE - 1)).take n).length = n := by
      rw [List.length_take, hfl]; omega
    obtain ⟨r1, r2, r3, r4⟩ := runClient_drains BUFFERSIZE socketd
      ((_echotcp_fillCharBuffer wenv.rand
        (freshClient BUFFERSIZE socketd epolld serverIP).sendBuffer (BUFFERSIZE - 1)).take n)
      (by rw [hTl]; omega) drains
      { freshClient BUFFERSIZE socketd epolld serverIP with
          sendBuffer := _echotcp_fillCharBuffer wenv.rand
            (freshClient BUFFERSIZE socketd epolld serverIP).sendBuffer (BUFFERSIZE - 1),
          sent_msg := 1, amount_sent := (n : Int) } 0
      rfl (by rw [hTl]) rfl (by rw [hTl]; exact hn)
      (by rw [hTl]; simp [freshClient]; exact hnB) (by rw [hTl, hfl]; exact hnB)
      (by rw [hTl]) (by simp) hne hterm (by rw [List.drop_zero]; exact hsplit.symm)
    rw [hTl] at r2
    refine ⟨r1, ?_, r4⟩
    rw [r2, r3]
  · intro polls fd env hd ha hdone
    exact clientReadable_verdict BUFFERSIZE _ fd env hB
      (runClient_wf BUFFERSIZE polls _ (freshClient_wf BUFFERSIZE socketd epolld serverIP))
      hd ha hdone

/-- Reassembly at `BUFFERSIZE = 3`: a first send of two bytes (the letters a
and b), echoed back one byte per readable event, the first drain ended by
`-1` and the second by `0`. -/
theorem client_reassembly_and_verdict_witness :
    (runClient 3
        (_echotcp_clientWritable 3 (freshClient 3 5 6 7) 5
          ⟨[], SendOutcome.count 2, -1, 0, fun i => i⟩).1
        ([([[97]], RecvOutcome.fail), ([[98]], RecvOutcome.data [])].map
          (fun d => readablePoll 5 (drainScript d)))).1.is_done = 1 ∧
    messages (runClient 3
        (_echotcp_clientWritable 3 (freshClient 3 5 6 7) 5
          ⟨[], SendOutcome.count 2, -1, 0, fun i => i⟩).1
        ([([[97]], RecvOutcome.fail), ([[98]], RecvOutcome.data [])].map
          (fun d => readablePoll 5 (drainScript d)))).2 = ["consistent echo received!"] :=
  ⟨(client_reassembly_and_verdict 3 2 (by decide) (by decide) (by decide) 5 6 7
      ⟨[], SendOutcome.fail, -1, 0, fun i => i⟩
      [([[97]], RecvOutcome.fail), ([[98]], RecvOutcome.data [])]
      (by decide) (by decide) (by decide)).1.1,
   (client_reassembly_and_verdict 3 2 (by decide) (by decide) (by decide) 5 6 7
      ⟨[], SendOutcome.fail, -1, 0, fun i => i⟩
      [([[97]], RecvOutcome.fail), ([[98]], RecvOutcome.data [])]
      (by decide) (by decide) (by decide)).1.2.2⟩

/-- C5. With `BUFFERSIZE = 2`, after a failing first send (`amount_sent = -1`,
the `-1` added unchecked) a readable event completes the client and the
verdict logged is the inconsistent one, although the first `amount_sent`
bytes of the two buffers (there are none) are equal: `memcmp` is called with
the length `(size_t)-1` and compares the filled `sendBuffer` with the
untouched `recvBuffer`. -/
theorem client_verdict_after_failed_send :
    (_echotcp_clientReadable
      (_echotcp_clientWritable 2 (freshClient 2 5 6 7) 5
        ⟨[], SendOutcome.fail, -1, 0, fun i => i⟩).1 5
      ⟨[], SendOutcome.fail, -1, 0, fun _ => 0⟩).1.is_done = 1 ∧
    messages (_echotcp_clientReadable
      (_echotcp_clientWritable 2 (freshClient 2 5 6 7) 5
        ⟨[], SendOutcome.fail, -1, 0, fun i => i⟩).1 5
      ⟨[], SendOutcome.fail, -1, 0, fun _ => 0⟩).2 = ["inconsistent echo received!"] ∧
    (_echotcp_clientReadable
      (_echotcp_clientWritable 2 (freshClient 2 5 6 7) 5
        ⟨[], SendOutcome.fail, -1, 0, fun i => i⟩).1 5
      ⟨[], SendOutcome.fail, -1, 0, fun _ => 0⟩).1.sendBuffer.take
        (_echotcp_clientReadable
          (_echotcp_clientWritable 2 (freshClient 2 5 6 7) 5
            ⟨[], SendOutcome.fail, -1, 0, fun i => i⟩).1 5
          ⟨[], SendOutcome.fail, -1, 0, fun _ => 0⟩).1.amount_sent.toNat
      = (_echotcp_clientReadable
      (_echotcp_clientWritable 2 (freshClient 2 5 6 7) 5
        ⟨[], SendOutcome.fail, -1, 0, fun i => i⟩).1 5
      ⟨[], SendOutcome.fail, -1, 0, fun _ => 0⟩).1.recvBuffer.take
        (_echotcp_clientReadable
          (_echotcp_clientWritable 2 (freshClient 2 5 6 7) 5
            ⟨[], SendOutcome.fail, -1, 0, fun i => i⟩).1 5
          ⟨[], SendOutcome.fail, -1, 0, fun _ => 0⟩).1.amount_sent.toNat := by
  decide

/-! ## Client: what remains of the receive bound -/

theorem clientReadable_bound (BUFFERSIZE : Nat) (ec : EchoClient) (socketd : Int) (env : Env)
    (hwf : clientWf BUFFERSIZE ec) (hb : clientBound ec) :
    clientBound (_echotcp_clientReadable ec socketd env).1 ∧
    ec.recv_offset ≤ (_echotcp_clientReadable ec socketd env).1.recv_offset := by
  obtain ⟨_, h2, h3, h4, _⟩ := hwf
  obtain ⟨_, f2, _, _, _⟩ := clientRecvLoop_frame socketd env.recvs ec
  obtain ⟨_, l2, l3⟩ := clientRecvLoop_wf BUFFERSIZE socketd env.recvs ec h2 h3 h4
  have hidle : ec.amount_sent = -1 → clientRecvLoop socketd ec env.recvs = (ec, []) :=
    fun h => clientRecvLoop_idle socketd ec env.recvs (by omega)
  have hl : clientBound (clientRecvLoop socketd ec env.recvs).1 := by
    rcases hb with hb | ⟨hb1, hb2⟩
    · left; rw [f2]; exact l3 hb
    · right; rw [hidle hb2]; exact ⟨hb1, hb2⟩
  unfold _echotcp_clientReadable clientBound at *
  dsimp only
  split_ifs <;> dsimp only
  · exact ⟨hl, l2⟩
  · exact ⟨hl, l2⟩
  · exact ⟨hl, l2⟩
  · exact ⟨hb, le_refl _⟩

theorem clientWritable_bound (BUFFERSIZE : Nat) (ec : EchoClient) (socketd : Int) (env : Env)
    (hwf : clientWf BUFFERSIZE ec) (hb : clientBound ec) :
    clientBound (_echotcp_clientWritable BUFFERSIZE ec socketd env).1 ∧
    ec.recv_offset = (_echotcp_clientWritable BUFFERSIZE ec socketd env).1.recv_offset := by
  obtain ⟨_, _, h3, _, h5⟩ := hwf
  have hrng := sendCall_range BUFFERSIZE env.send
  by_cases hs : ec.sent_msg = 0
  · have ha := h5 hs
    unfold clientBound at *
    simp only [_echotcp_clientWritable, hs, if_true]
    split_ifs <;> dsimp only <;> refine ⟨?_, rfl⟩ <;> omega
  · rw [clientWritable_sent BUFFERSIZE ec socketd env hs]
    exact ⟨hb, rfl⟩

theorem clientEvent_bound (BUFFERSIZE : Nat) (ec : EchoClient) (ev : EpollEvent)
    (hwf : clientWf BUFFERSIZE ec) (hb : clientBound ec) :
    clientBound (clientEvent BUFFERSIZE ec ev).1 ∧
    ec.recv_offset ≤ (clientEvent BUFFERSIZE ec ev).1.recv_offset := by
  obtain ⟨r1, r2⟩ := clientReadable_bound BUFFERSIZE ec ev.fd ev.rd hwf hb
  have rwf := clientReadable_wf BUFFERSIZE ec ev.fd ev.rd hwf
  by_cases hin : ev.events &&& EPOLLIN ≠ 0 <;> by_cases hout : ev.events &&& EPOLLOUT ≠ 0
  · obtain ⟨w1, w2⟩ := clientWritable_bound BUFFERSIZE _ ev.fd ev.wr rwf r1
    simp only [clientEvent, if_pos hin, if_pos hout]
    exact ⟨w1, by omega⟩
  · simp only [clientEvent, if_pos hin, if_neg hout]
    exact ⟨r1, r2⟩
  · obtain ⟨w1, w2⟩ := clientWritable_bound BUFFERSIZE ec ev.fd ev.wr hwf hb
    simp only [clientEvent, if_neg hin, if_pos hout]
    exact ⟨w1, by omega⟩
  · simp only [clientEvent, if_neg hin, if_neg hout]
    exact ⟨hb, le_refl _⟩

theorem clientEvents_bound (BUFFERSIZE : Nat) (evs : List EpollEvent) :
    ∀ ec : EchoClient, clientWf BUFFERSIZE ec → clientBound ec →
      clientBound (clientEvents BUFFERSIZE ec evs).1 ∧
      ec.recv_offset ≤ (clientEvents BUFFERSIZE ec evs).1.recv_offset := by
  induction evs with
  | nil => intro ec _ hb; exact ⟨hb, le_refl _⟩
  | cons ev rest ih =>
    intro ec hwf hb
    obtain ⟨e1, e2⟩ := clientEvent_bound BUFFERSIZE ec ev hwf hb
    obtain ⟨i1, i2⟩ := ih _ (clientEvent_wf BUFFERSIZE ec ev hwf) e1
    unfold clientEvents
    exact ⟨i1, by dsimp only; omega⟩

/-- From construction on, over any sequence of polls with any events and call
results, `recv_offset` never decreases from one poll to the next, and
`recv_offset <= amount_sent` holds unless a failed send has left
`amount_sent` at `-1`. -/
theorem runClient_bound (BUFFERSIZE : Nat) (polls : List (Option (List EpollEvent))) :
    ∀ ec : EchoClient, clientWf BUFFERSIZE ec → clientBound ec →
      clientBound (runClient BUFFERSIZE ec polls).1 ∧
      ec.recv_offset ≤ (runClient BUFFERSIZE ec polls).1.recv_offset := by
  induction polls with
  | nil => intro ec _ hb; exact ⟨hb, le_refl _⟩
  | cons poll rest ih =>
    intro ec hwf hb
    unfold runClient
    dsimp only
    cases poll with
    | none =>
      obtain ⟨i1, i2⟩ := ih ec hwf hb
      exact ⟨i1, i2⟩
    | some evs =>
      obtain ⟨e1, e2⟩ := clientEvents_bound BUFFERSIZE evs ec hwf hb
      obtain ⟨i1, i2⟩ := ih _ (clientEvents_wf BUFFERSIZE evs ec hwf) e1
      exact ⟨i1, by simp only [readyClient]; omega⟩

/-! ## Server: end of tick and end of stream -/

theorem readyServer_dispatch (BUFFERSIZE : Nat) (es : EchoServer)
    (poll : Option (List EpollEvent)) :
    (readyServer BUFFERSIZE es poll).1 = serverReset (serverDispatch BUFFERSIZE es poll) := by
  cases poll <;> rfl

/-- C11. At the end of an `echotcp_ready` call on a session that owns a
server, with `d` the server state after event dispatch: the session still owns
a server, whose `read_offset` and `write_offset` are both `0` if they were
equal in `d` and are those of `d` otherwise, the buffer being that of `d`;
hence after the tick the two offsets are equal only when both are `0`. -/
theorem end_of_tick_recycling (BUFFERSIZE : Nat) (etcp : EchoTCP) (es : EchoServer) (t : Tick)
    (h : etcp.server = some es) :
    ∃ es1 : EchoServer, (echotcp_ready BUFFERSIZE etcp t).1.server = some es1 ∧
      ((serverDispatch BUFFERSIZE es t.server).read_offset
          = (serverDispatch BUFFERSIZE es t.server).write_offset →
        es1.read_offset = 0 ∧ es1.write_offset = 0) ∧
      ((serverDispatch BUFFERSIZE es t.server).read_offset
          ≠ (serverDispatch BUFFERSIZE es t.server).write_offset →
        es1.read_offset = (serverDispatch BUFFERSIZE es t.server).read_offset ∧
        es1.write_offset = (serverDispatch BUFFERSIZE es t.server).write_offset) ∧
      es1.echoBuffer = (serverDispatch BUFFERSIZE es t.server).echoBuffer ∧
      (es1.read_offset = es1.write_offset → es1.read_offset = 0 ∧ es1.write_offset = 0) := by
  refine ⟨serverReset (serverDispatch BUFFERSIZE es t.server), ?_, ?_, ?_, ?_, ?_⟩
  · simp only [echotcp_ready, h, readyServer_dispatch]
  · intro he
    simp only [serverReset, if_pos he, and_self]
  · intro he
    simp only [serverReset, if_neg he, and_self]
  · unfold serverReset
    split_ifs <;> rfl
  · exact serverReset_settled _

/-- C11, witness: a server with `BUFFERSIZE = 4` holding two received bytes, in
a tick whose one event lets it send both. -/
theorem end_of_tick_recycling_witness :
    ∃ es1 : EchoServer,
      (echotcp_ready 4
        { client := none,
          server := some { epolld := 6, listend := 5, echoBuffer := [1, 2, 0, 0],
                           read_offset := 2, write_offset := 0 } }
        { client := none,
          server := some [⟨EPOLLOUT, 7, ⟨[], SendOutcome.fail, -1, 0, fun _ => 0⟩,
                           ⟨[], SendOutcome.count 2, -1, 0, fun _ => 0⟩⟩] }).1.server
        = some es1 ∧
      es1.read_offset = 0 ∧ es1.write_offset = 0 := by
  obtain ⟨es1, h1, h2, _, _, _⟩ := end_of_tick_recycling 4
    { client := none,
      server := some { epolld := 6, listend := 5, echoBuffer := [1, 2, 0, 0],
                       read_offset := 2, write_offset := 0 } }
    { epolld := 6, listend := 5, echoBuffer := [1, 2, 0, 0], read_offset := 2, write_offset := 0 }
    { client := none,
      server := some [⟨EPOLLOUT, 7, ⟨[], SendOutcome.fail, -1, 0, fun _ => 0⟩,
                       ⟨[], SendOutcome.count 2, -1, 0, fun _ => 0⟩⟩] } rfl
  exact ⟨es1, h1, h2 (by decide)⟩

/-- C12. For a server state with `read_offset < BUFFERSIZE`, a readable event
on a socket other than the listening socket whose `recv` returns `0` leaves
the server state as it was (`read_offset`, `write_offset` and `echoBuffer`
included) and issues, after the debug line and the `recv`, a `close` of the
listening socket and a `close` of that peer socket. -/
theorem listener_closed_on_peer_eof (BUFFERSIZE : Nat) (es : EchoServer) (socketd : Int)
    (env : Env) (hpeer : socketd ≠ es.listend) (hroom : es.read_offset < (BUFFERSIZE : Int))
    (heof : (recvCall ((BUFFERSIZE : Int) - es.read_offset).toNat
      (env.recvs.headD RecvOutcome.fail)).1 = 0) :
    (_echotcp_serverReadable BUFFERSIZE es socketd env).1 = es ∧
    (_echotcp_serverReadable BUFFERSIZE es socketd env).2 =
      [Call.log LogLevel.debug "trying to read socket %i",
       Call.recv socketd ((BUFFERSIZE : Int) - es.read_offset).toNat 0 [],
       Call.close es.listend, Call.close socketd] := by
  have hrng := recvCall_range ((BUFFERSIZE : Int) - es.read_offset).toNat
    (env.recvs.headD RecvOutcome.fail)
  have hd : (recvCall ((BUFFERSIZE : Int) - es.read_offset).toNat
      (env.recvs.headD RecvOutcome.fail)).2 = [] := by
    rcases hrng with ⟨h1, _⟩ | ⟨h1, _⟩
    · omega
    · exact List.length_eq_zero.mp (by omega)
  have hsz : (BUFFERSIZE : Int) - es.read_offset > 0 := by omega
  unfold _echotcp_serverReadable
  dsimp only
  rw [if_neg hpeer, if_pos hsz, if_pos heof, heof, hd, writeAt_nil]
  exact ⟨rfl, rfl⟩

/-- C12, witness: a fresh server with `BUFFERSIZE = 4` and listening socket 5;
peer socket 7 reaches end of stream. -/
theorem listener_closed_on_peer_eof_witness :
    (_echotcp_serverReadable 4 (freshServer 4 5 6) 7
      ⟨[RecvOutcome.data []], SendOutcome.fail, -1, 0, fun _ => 0⟩).2 =
      [Call.log LogLevel.debug "trying to read socket %i", Call.recv 7 4 0 [],
       Call.close 5, Call.close 7] :=
  (listener_closed_on_peer_eof 4 (freshServer 4 5 6) 7
    ⟨[RecvOutcome.data []], SendOutcome.fail, -1, 0, fun _ => 0⟩
    (by decide) (by decide) (by decide)).2

/-! ## Server: two peers on one buffer -/

/-- A readable event on the listening socket with a successful `accept`. -/
theorem serverReadable_accept (BUFFERSIZE : Nat) (es : EchoServer) (env : Env)
    (ha : env.accept ≠ -1) (hc : env.ctl ≠ -1) :
    _echotcp_serverReadable BUFFERSIZE es es.listend env =
      (es, [Call.log LogLevel.debug "trying to read socket %i",
            Call.accept es.listend env.accept,
            Call.epoll_ctl es.epolld EPOLL_CTL_ADD env.accept EPOLLIN env.ctl]) := by
  unfold _echotcp_serverReadable
  rw [if_pos rfl, if_neg ha, if_neg hc, List.append_nil]

/-- A readable event on a peer socket whose `recv` delivers `data`, which
fits the room left in the buffer. -/
theorem serverReadable_data (BUFFERSIZE : Nat) (es : EchoServer) (socketd : Int) (env : Env)
    (data : List Byte) (hpeer : socketd ≠ es.listend) (hne : data ≠ []) (hfit : es.read_offset + (data.length : Int) ≤ (BUFFERSIZE : Int))
    (hrecv : env.recvs.headD RecvOutcome.fail = RecvOutcome.data data) (hc : env.ctl ≠ -1) :
    _echotcp_serverReadable BUFFERSIZE es socketd env =
      ({ es with echoBuffer := writeAt es.echoBuffer es.read_offset.toNat data,
                 read_offset := es.read_offset + (data.length : Int) },
       [Call.log LogLevel.debug "trying to read socket %i",
        Call.recv socketd ((BUFFERSIZE : Int) - es.read_offset).toNat (data.length : Int) data,
        Call.log LogLevel.info "server socket %i read %i bytes",
        Call.epoll_ctl es.epolld EPOLL_CTL_MOD socketd (EPOLLIN ||| EPOLLOUT) env.ctl]) := by
  have hpos : 0 < data.length := List.length_pos.mpr hne
  have hsz : (BUFFERSIZE : Int) - es.read_offset > 0 := by omega
  have hrc : recvCall ((BUFFERSIZE : Int) - es.read_offset).toNat (RecvOutcome.data data)
      = ((data.length : Int), data) := recvCall_data _ _ (by omega)
  unfold _echotcp_serverReadable
  dsimp only
  rw [if_neg hpeer, if_pos hsz, hrecv, hrc]
  dsimp only
  rw [if_neg (by omega), if_pos (by omega), if_neg hc, List.append_nil]
  rfl

/-- A writable event on a socket that takes everything pending. -/
theorem serverWritable_all (es : EchoServer) (socketd : Int) (env : Env) (k : Nat)
    (hw : es.write_offset < es.read_offset) (hs : env.send = SendOutcome.count k)
    (hk : (es.read_offset - es.write_offset).toNat ≤ k) (hc : env.ctl ≠ -1) :
    _echotcp_serverWritable es socketd env =
      ({ es with write_offset := es.read_offset },
       [Call.log LogLevel.debug "trying to read socket %i",
        Call.send socketd (slice es.echoBuffer es.write_offset es.read_offset)
          (es.read_offset - es.write_offset),
        Call.log LogLevel.info "server socket %i wrote %i bytes",
        Call.epoll_ctl es.epolld EPOLL_CTL_MOD socketd EPOLLIN env.ctl]) := by
  have hsz : es.read_offset - es.write_offset > 0 := by omega
  have hb : sendCall (es.read_offset - es.write_offset).toNat env.send
      = es.read_offset - es.write_offset := by
    rw [hs]; simp only [sendCall]; omega
  unfold _echotcp_serverWritable
  dsimp only
  have hz : ¬ (es.read_offset - es.write_offset = 0) := by omega
  have hzz : es.read_offset - es.write_offset - (es.read_offset - es.write_offset) = 0 := by
    omega
  have e : es.write_offset + (es.read_offset - es.write_offset) = es.read_offset := by omega
  rw [if_pos hsz, hb, if_neg hz, if_pos hsz]
  dsimp only
  rw [if_pos hzz, if_neg hc, e]
  rfl

theorem serverEvent_readable (BUFFERSIZE : Nat) (es : EchoServer) (fd : Int) (rd wr : Env) :
    serverEvent BUFFERSIZE es { events := EPOLLIN, fd := fd, rd := rd, wr := wr }
      = _echotcp_serverReadable BUFFERSIZE es fd rd := by
  have h1 : EPOLLIN &&& EPOLLIN ≠ 0 := by decide
  have h2 : ¬ (EPOLLIN &&& EPOLLOUT ≠ 0) := by decide
  simp only [serverEvent, if_pos h1, if_neg h2, List.append_nil]

theorem serverEvent_writable (BUFFERSIZE : Nat) (es : EchoServer) (fd : Int) (rd wr : Env) :
    serverEvent BUFFERSIZE es { events := EPOLLOUT, fd := fd, rd := rd, wr := wr }
      = _echotcp_serverWritable es fd wr := by
  have h1 : ¬ (EPOLLOUT &&& EPOLLIN ≠ 0) := by decide
  have h2 : EPOLLOUT &&& EPOLLOUT ≠ 0 := by decide
  simp only [serverEvent, if_neg h1, if_pos h2, List.nil_append]

/-- C13. On one server (any `BUFFERSIZE >= 2`) there are two distinct peer
sockets `p` and `q` and a sequence of ticks in which both are accepted before
any `recv` is made, `q` then delivers data, and the bytes the server sends to
`p` are the bytes received from `p` followed by the bytes received from `q`:
`p` is sent what `q` delivered. -/
theorem shared_buffer_commingling (BUFFERSIZE : Nat) (listend epolld : Int)
    (hB : 2 ≤ BUFFERSIZE) (hL : 0 ≤ listend) :
    ∃ (p q : Int) (polls : List (Option (List EpollEvent))),
      p ≠ q ∧ p ≠ listend ∧ q ≠ listend ∧
      Call.accept listend p ∈ beforeFirstRecv
        (runServer BUFFERSIZE (freshServer BUFFERSIZE listend epolld) polls).2 ∧
      Call.accept listend q ∈ beforeFirstRecv
        (runServer BUFFERSIZE (freshServer BUFFERSIZE listend epolld) polls).2 ∧
      recvBytesOn q (runServer BUFFERSIZE (freshServer BUFFERSIZE listend epolld) polls).2 ≠ [] ∧
      sentBytesOn p (runServer BUFFERSIZE (freshServer BUFFERSIZE listend epolld) polls).2
        = recvBytesOn p (runServer BUFFERSIZE (freshServer BUFFERSIZE listend epolld) polls).2
          ++ recvBytesOn q
            (runServer BUFFERSIZE (freshServer BUFFERSIZE listend epolld) polls).2 := by
  obtain ⟨m, rfl⟩ : ∃ m, BUFFERSIZE = m + 2 := ⟨BUFFERSIZE - 2, by omega⟩
  have a1 := serverReadable_accept (m + 2) (freshServer (m + 2) listend epolld)
    { idleEnv with accept := listend + 1 } (by simp only [ne_eq]; omega) (by simp [idleEnv])
  have a2 := serverReadable_accept (m + 2) (freshServer (m + 2) listend epolld)
    { idleEnv with accept := listend + 2 } (by simp only [ne_eq]; omega) (by simp [idleEnv])
  have r0 : serverReset (freshServer (m + 2) listend epolld)
      = freshServer (m + 2) listend epolld :=
    serverReset_of_settled _ (fun _ => ⟨rfl, rfl⟩)
  have d1 := serverReadable_data (m + 2) (freshServer (m + 2) listend epolld) (listend + 1)
    { idleEnv with recvs := [RecvOutcome.data [1]] } [1]
    (by simp only [freshServer, ne_eq]; omega) (by decide)
    (by simp only [freshServer, List.length_singleton]; omega) rfl (by simp [idleEnv])
  have d2 := serverReadable_data (m + 2)
    { freshServer (m + 2) listend epolld with
      echoBuffer := writeAt (freshServer (m + 2) listend epolld).echoBuffer
        (freshServer (m + 2) listend epolld).read_offset.toNat [1],
      read_offset := (freshServer (m + 2) listend epolld).read_offset
        + (([1] : List Byte).length : Int) }
    (listend + 2) { idleEnv with recvs := [RecvOutcome.data [2]] } [2]
    (by simp only [freshServer, ne_eq]; omega) (by decide)
    (by simp only [freshServer, List.length_singleton]; omega) rfl (by simp [idleEnv])
  have r2 : serverReset
      { freshServer (m + 2) listend epolld with
        echoBuffer := writeAt
          (writeAt (freshServer (m + 2) listend epolld).echoBuffer
            (freshServer (m + 2) listend epolld).read_offset.toNat [1])
          ((freshServer (m + 2) listend epolld).read_offset
            + (([1] : List Byte).length : Int)).toNat [2],
        read_offset := (freshServer (m + 2) listend epolld).read_offset
          + (([1] : List Byte).length : Int) + (([2] : List Byte).length : Int) }
      = { freshServer (m + 2) listend epolld with
        echoBuffer := writeAt
          (writeAt (freshServer (m + 2) listend epolld).echoBuffer
            (freshServer (m + 2) listend epolld).read_offset.toNat [1])
          ((freshServer (m + 2) listend epolld).read_offset
            + (([1] : List Byte).length : Int)).toNat [2],
        read_offset := (freshServer (m + 2) listend epolld).read_offset
          + (([1] : List Byte).length : Int) + (([2] : List Byte).length : Int) } := by
    simp [serverReset, freshServer]
  have w := serverWritable_all
    { freshServer (m + 2) listend epolld with
        echoBuffer := writeAt
          (writeAt (freshServer (m + 2) listend epolld).echoBuffer
            (freshServer (m + 2) listend epolld).read_offset.toNat [1])
          ((freshServer (m + 2) listend epolld).read_offset
            + (([1] : List Byte).length : Int)).toNat [2],
        read_offset := (freshServer (m + 2) listend epolld).read_offset
          + (([1] : List Byte).length : Int) + (([2] : List Byte).length : Int) }
    (listend + 1) { idleEnv with send := SendOutcome.count 2 } 2
    (by simp [freshServer]) rfl (by simp [freshServer]) (by simp [idleEnv])
  rw [show (freshServer (m + 2) listend epolld).listend = listend from rfl] at a1 a2
  refine ⟨listend + 1, listend + 2, twoPeerPolls listend (listend + 1) (listend + 2),
    by omega, by omega, by omega, ?_⟩
  simp only [twoPeerPolls, runServer, readyServer, serverEvents, serverEvent_readable,
    serverEvent_writable, a1, a2, r0, d1, d2, r2, w]
  have hslice : slice (writeAt (writeAt (List.replicate (m + 2) (0 : Byte)) 0 [1]) 1 [2]) 0 2
      = [1, 2] := by
    simp [slice, writeAt, List.replicate_succ]
  simp [beforeFirstRecv, List.takeWhile, Call.isRecv, recvBytesOn, sentBytesOn, freshServer,
    hslice]

/-- C13, witness: `BUFFERSIZE = 4`, listening socket 5. -/
theorem shared_buffer_commingling_witness :
    ∃ (p q : Int) (polls : List (Option (List EpollEvent))),
      p ≠ q ∧ p ≠ 5 ∧ q ≠ 5 ∧
      Call.accept 5 p ∈ beforeFirstRecv (runServer 4 (freshServer 4 5 6) polls).2 ∧
      Call.accept 5 q ∈ beforeFirstRecv (runServer 4 (freshServer 4 5 6) polls).2 ∧
      recvBytesOn q (runServer 4 (freshServer 4 5 6) polls).2 ≠ [] ∧
      sentBytesOn p (runServer 4 (freshServer 4 5 6) polls).2
        = recvBytesOn p (runServer 4 (freshServer 4 5 6) polls).2
          ++ recvBytesOn q (runServer 4 (freshServer 4 5 6) polls).2 :=
  shared_buffer_commingling 4 5 6 (by decide) (by decide)

/-! ## Client: the payload and the interest after the send -/

theorem fill_getElem? (f : Nat → Byte) (l : List Nat) :
    ∀ (buf : List Byte) (i : Nat),
      (l.foldl (fun b j => b.set j (f j)) buf)[i]? =
        if i ∈ l then (if i < buf.length then some (f i) else none) else buf[i]? := by
  induction l with
  | nil => intro buf i; simp
  | cons j rest ih =>
    intro buf i
    simp only [List.foldl_cons]
    rw [ih, List.length_set, List.getElem?_set]
    by_cases hr : i ∈ rest
    · simp [hr]
    · by_cases hj : j = i
      · subst hj
        simp [hr]
      · have hne : ¬ i = j := fun h => hj h.symm
        simp [hr, hj, hne]

/-- What `_echotcp_fillCharBuffer` leaves in the buffer: a lower-case letter
in each of the first `size` cells, the other cells as they were. -/
theorem fillCharBuffer_getElem? (rand : Nat → Nat) (buffer : List Byte) (size i : Nat)
    (hsize : size ≤ buffer.length) :
    (i < size → ∃ c : Byte, (_echotcp_fillCharBuffer rand buffer size)[i]? = some c ∧
      isLowercase c) ∧
    (size ≤ i → (_echotcp_fillCharBuffer rand buffer size)[i]? = buffer[i]?) := by
  unfold _echotcp_fillCharBuffer
  rw [fill_getElem? (fun i => Fin.ofNat (97 + rand i % 26))]
  constructor
  · intro hi
    refine ⟨Fin.ofNat (97 + rand i % 26), ?_, ?_⟩
    · rw [if_pos (List.mem_range.mpr hi), if_pos (by omega)]
    · have h26 : rand i % 26 < 26 := Nat.mod_lt _ (by decide)
      simp only [isLowercase, Fin.ofNat, Nat.succ_eq_add_one]
      omega
  · intro hi
    rw [if_neg (by rw [List.mem_range]; omega)]

theorem clientWritable_first (BUFFERSIZE : Nat) (ec : EchoClient) (socketd : Int) (env : Env)
    (hs : ec.sent_msg = 0) :
    (_echotcp_clientWritable BUFFERSIZE ec socketd env).1 =
      { ec with sendBuffer := _echotcp_fillCharBuffer env.rand ec.sendBuffer (BUFFERSIZE - 1),
                sent_msg := 1,
                amount_sent := ec.amount_sent + sendCall BUFFERSIZE env.send } ∧
    Call.send socketd (_echotcp_fillCharBuffer env.rand ec.sendBuffer (BUFFERSIZE - 1))
      (sendCall BUFFERSIZE env.send) ∈ (_echotcp_clientWritable BUFFERSIZE ec socketd env).2 := by
  simp only [_echotcp_clientWritable, hs, if_true]
  split_ifs <;> simp

/-- C14 (as amended). On the first writable event (`sent_msg` clear,
`sendBuffer` still the zeroed array), for every sequence of `rand()` values,
the client hands its whole `sendBuffer` of `BUFFERSIZE` bytes to `send`; each
of the first `BUFFERSIZE - 1` bytes is an ASCII lower-case letter and the last
byte is `0`. -/
theorem send_payload_letters_then_nul (BUFFERSIZE : Nat) (ec : EchoClient) (socketd : Int)
    (env : Env) (hB : 0 < BUFFERSIZE) (hs : ec.sent_msg = 0)
    (hz : ec.sendBuffer = List.replicate BUFFERSIZE 0) :
    Call.send socketd (_echotcp_clientWritable BUFFERSIZE ec socketd env).1.sendBuffer
      (sendCall BUFFERSIZE env.send) ∈ (_echotcp_clientWritable BUFFERSIZE ec socketd env).2 ∧
    (_echotcp_clientWritable BUFFERSIZE ec socketd env).1.sendBuffer.length = BUFFERSIZE ∧
    (∀ i, i < BUFFERSIZE - 1 →
      ∃ c : Byte, (_echotcp_clientWritable BUFFERSIZE ec socketd env).1.sendBuffer[i]? = some c ∧
        isLowercase c) ∧
    (_echotcp_clientWritable BUFFERSIZE ec socketd env).1.sendBuffer[BUFFERSIZE - 1]? = some 0 := by
  obtain ⟨h1, h2⟩ := clientWritable_first BUFFERSIZE ec socketd env hs
  have hlen : ec.sendBuffer.length = BUFFERSIZE := by rw [hz]; simp
  rw [h1]
  dsimp only
  refine ⟨h2, ?_, ?_, ?_⟩
  · rw [fillCharBuffer_length]; exact hlen
  · intro i hi
    exact (fillCharBuffer_getElem? env.rand ec.sendBuffer (BUFFERSIZE - 1) i (by omega)).1 hi
  · rw [(fillCharBuffer_getElem? env.rand ec.sendBuffer (BUFFERSIZE - 1) (BUFFERSIZE - 1)
      (by omega)).2 (le_refl _), hz]
    exact List.getElem?_replicate_of_lt (by omega)

/-- C14, witness: a fresh client with `BUFFERSIZE = 4`. -/
theorem send_payload_letters_then_nul_witness :
    (_echotcp_clientWritable 4 (freshClient 4 5 6 7) 5
      ⟨[], SendOutcome.count 4, -1, 0, fun i => i⟩).1.sendBuffer[3]? = some 0 :=
  (send_payload_letters_then_nul 4 (freshClient 4 5 6 7) 5
    ⟨[], SendOutcome.count 4, -1, 0, fun i => i⟩ (by decide) rfl rfl).2.2.2

/-- C14, counterexample: with `BUFFERSIZE = 4` and `rand()` returning 0, 1,
2, ... the bytes handed to `send` are the letters a, b, c and then the byte
`0`, which is not a lower-case letter. -/
theorem send_payload_last_byte_not_letter :
    Call.send 5 [97, 98, 99, 0] 4 ∈
      (_echotcp_clientWritable 4 (freshClient 4 5 6 7) 5
        ⟨[], SendOutcome.count 4, -1, 0, fun i => i⟩).2 ∧
    ¬ ∀ b ∈ ([97, 98, 99, 0] : List Byte), isLowercase b :=
  ⟨(clientWritable_first 4 (freshClient 4 5 6 7) 5
      ⟨[], SendOutcome.count 4, -1, 0, fun i => i⟩ rfl).2,
   fun h => absurd (h 0 (by decide)) (by decide)⟩

theorem toSizeT_neg_one : toSizeT (-1) = 2 ^ 64 - 1 := by
  have h : (-1 : Int) % (2 ^ 64 : Int) = 2 ^ 64 - 1 := by norm_num
  unfold toSizeT
  rw [h]
  omega

/-- On the first writable event of a client (`sent_msg` clear, `amount_sent`
zero) the interest is changed to readable-only exactly when `send` took the
whole buffer or failed. -/
theorem clientWritable_interest (BUFFERSIZE : Nat) (ec : EchoClient) (socketd : Int) (env : Env)
    (hB : BUFFERSIZE < 2 ^ 31) (hs : ec.sent_msg = 0) (ha : ec.amount_sent = 0) :
    Call.epoll_ctl ec.epolld EPOLL_CTL_MOD socketd EPOLLIN env.ctl ∈
        (_echotcp_clientWritable BUFFERSIZE ec socketd env).2 ↔
      (sendCall BUFFERSIZE env.send = (BUFFERSIZE : Int) ∨ sendCall BUFFERSIZE env.send = -1) := by
  have hrng := sendCall_range BUFFERSIZE env.send
  have hsz : toSizeT (0 + sendCall BUFFERSIZE env.send) ≥ BUFFERSIZE ↔
      (sendCall BUFFERSIZE env.send = (BUFFERSIZE : Int) ∨
        sendCall BUFFERSIZE env.send = -1) := by
    rw [Int.zero_add]
    rcases hrng with h | ⟨h0, h1⟩
    · rw [h, toSizeT_neg_one]
      constructor
      · intro _; right; rfl
      · intro _; omega
    · have hlt : sendCall BUFFERSIZE env.send < 2 ^ 64 := by
        have : (BUFFERSIZE : Int) < 2 ^ 31 := by exact_mod_cast hB
        omega
      rw [toSizeT_of_nonneg _ h0 hlt]
      omega
  simp only [_echotcp_clientWritable, hs, ha, if_true]
  by_cases hc : toSizeT (0 + sendCall BUFFERSIZE env.send) ≥ BUFFERSIZE
  · rw [if_pos hc]
    constructor
    · intro _; exact hsz.mp hc
    · intro _; simp
  · rw [if_neg hc]
    constructor
    · intro h; simp at h
    · intro h; exact absurd (hsz.mpr h) hc

/-- C15. On the first writable event of a freshly constructed client, a
failing `send` (result `-1`, not the buffer's capacity) still changes the
socket's interest to readable-only: `amount_sent` becomes `-1`, which the
comparison with `sizeof(ec->sendBuffer)` reads as the largest `size_t`. -/
theorem client_interest_changed_on_failed_send (BUFFERSIZE : Nat) (socketd epolld : Int)
    (serverIP : Nat) (env : Env) (hB : BUFFERSIZE < 2 ^ 31) :
    sendCall BUFFERSIZE SendOutcome.fail ≠ (BUFFERSIZE : Int) ∧
    Call.epoll_ctl epolld EPOLL_CTL_MOD socketd EPOLLIN env.ctl ∈
      (_echotcp_clientWritable BUFFERSIZE (freshClient BUFFERSIZE socketd epolld serverIP) socketd
        { env with send := SendOutcome.fail }).2 := by
  constructor
  · simp only [sendCall]; omega
  · exact (clientWritable_interest BUFFERSIZE (freshClient BUFFERSIZE socketd epolld serverIP)
      socketd { env with send := SendOutcome.fail } hB rfl rfl).mpr (Or.inr rfl)

/-- C15, witness: `BUFFERSIZE = 4`, client socket 5, epoll descriptor 6. -/
theorem client_interest_changed_on_failed_send_witness :
    Call.epoll_ctl 6 EPOLL_CTL_MOD 5 EPOLLIN 0 ∈
      (_echotcp_clientWritable 4 (freshClient 4 5 6 7) 5
        ⟨[], SendOutcome.fail, -1, 0, fun i => i⟩).2 :=
  (client_interest_changed_on_failed_send 4 5 6 7 ⟨[], SendOutcome.fail, -1, 0, fun i => i⟩
    (by decide)).2

/-! ## Scallion: the bandwidth conversion -/

theorem wrapInt_of_range (x : Int) (h0 : -(2 ^ 31) ≤ x) (h1 : x < 2 ^ 31) : wrapInt x = x := by
  unfold wrapInt
  rw [Int.emod_eq_of_lt (by omega) (by omega)]
  omega

/-- As long as `bandwidth * 1000` fits an `int`, the value returned is
`min(INT_MAX, bandwidth * 1000)`, which is the product itself. -/
theorem bandwidth_assess_in_range (bandwidth : Int) (h0 : -(2 ^ 31) ≤ bandwidth * 1000)
    (h1 : bandwidth * 1000 ≤ INT_MAX) :
    intercept_rep_hist_bandwidth_assess bandwidth = min INT_MAX (bandwidth * 1000) := by
  unfold INT_MAX at h1
  have hw : wrapInt (bandwidth * 1000) = bandwidth * 1000 :=
    wrapInt_of_range _ h0 (by omega)
  unfold intercept_rep_hist_bandwidth_assess
  simp only [hw, INT_MAX]
  split_ifs <;> omega

/-- C16. For the configured bandwidth 4294968 (KB), a value an `int` holds,
the exact product 4294968000 exceeds `INT_MAX`, so the capped value is
`INT_MAX`; the code multiplies in `int`, and returns the wrapped-around 704. -/
theorem bandwidth_assess_wraps_around :
    -(2 ^ 31) ≤ (4294968 : Int) ∧ (4294968 : Int) ≤ INT_MAX ∧
    min INT_MAX ((4294968 : Int) * 1000) = INT_MAX ∧
    intercept_rep_hist_bandwidth_assess 4294968 = 704 := by
  refine ⟨by decide, by decide, by decide, by decide⟩

/-! ## Client: the verdict after a failed send -/

theorem memcmp_head_ne (a b : Byte) (as bs : List Byte) (n : Nat) (h : a ≠ b) :
    memcmp (a :: as) (b :: bs) (n + 1) ≠ 0 := by
  simp only [memcmp, if_neg h]
  intro h0
  apply h
  apply Fin.ext
  omega

/-- For every `BUFFERSIZE >= 2`, every sequence of `rand()` values and every
`recv` result: after a failing first send, the readable event that completes
the client logs the inconsistent verdict. -/
theorem client_inconsistent_after_failed_send (BUFFERSIZE : Nat) (hB : 2 ≤ BUFFERSIZE)
    (socketd epolld : Int) (serverIP : Nat) (wenv renv : Env) :
    messages (_echotcp_clientReadable
      (_echotcp_clientWritable BUFFERSIZE (freshClient BUFFERSIZE socketd epolld serverIP) socketd
        { wenv with send := SendOutcome.fail }).1 socketd renv).2
      = ["inconsistent echo received!"] := by
  obtain ⟨c, hc, hlow⟩ := (fillCharBuffer_getElem? wenv.rand
    (List.replicate BUFFERSIZE (0 : Byte)) (BUFFERSIZE - 1) 0
    (by simp only [List.length_replicate]; omega)).1 (by omega)
  obtain ⟨rest, hrest⟩ : ∃ rest, _echotcp_fillCharBuffer wenv.rand
      (List.replicate BUFFERSIZE (0 : Byte)) (BUFFERSIZE - 1) = c :: rest := by
    cases hf : _echotcp_fillCharBuffer wenv.rand (List.replicate BUFFERSIZE (0 : Byte))
        (BUFFERSIZE - 1) with
    | nil => rw [hf] at hc; simp at hc
    | cons x xs =>
      rw [hf] at hc
      simp only [List.getElem?_cons_zero, Option.some.injEq] at hc
      exact ⟨xs, by rw [hc]⟩
  obtain ⟨m, hm⟩ : ∃ m, BUFFERSIZE = m + 1 := ⟨BUFFERSIZE - 1, by omega⟩
  have hc0 : c ≠ 0 := by
    intro h
    rw [h] at hlow
    simp [isLowercase] at hlow
  have hsz : toSizeT (0 + sendCall BUFFERSIZE SendOutcome.fail) = (2 ^ 64 - 2) + 1 := by
    simp only [sendCall, Int.zero_add, toSizeT_neg_one]
    norm_num
  have hne : memcmp (_echotcp_fillCharBuffer wenv.rand (List.replicate BUFFERSIZE (0 : Byte))
      (BUFFERSIZE - 1)) (List.replicate BUFFERSIZE (0 : Byte))
      (toSizeT (0 + sendCall BUFFERSIZE SendOutcome.fail)) ≠ 0 := by
    rw [hrest, hsz]
    conv in List.replicate BUFFERSIZE (0 : Byte) => rw [hm, List.replicate_succ]
    exact memcmp_head_ne c 0 rest _ _ hc0
  rw [(clientWritable_first BUFFERSIZE (freshClient BUFFERSIZE socketd epolld serverIP) socketd
    { wenv with send := SendOutcome.fail } rfl).1]
  unfold _echotcp_clientReadable
  rw [clientRecvLoop_idle _ _ _ (by simp [freshClient, sendCall])]
  have hne2 : ¬ memcmp (_echotcp_fillCharBuffer wenv.rand
      (List.replicate BUFFERSIZE (0 : Byte)) (BUFFERSIZE - 1))
      (List.replicate BUFFERSIZE (0 : Byte)) (toSizeT (-1)) = 0 := by
    simpa only [sendCall, Int.zero_add] using hne
  simp [freshClient, sendCall, messages, hne2]

end ShadowEcho
